import Mathlib

/-! ServerIconExportUpdateProcess

A shallow embedding of `src/apps/haikudepot/server/ServerIconExportUpdateProcess.cpp`
(HaikuDepot's icon archive download) and the properties proved about it.

* status codes are `Int` values (`status_t` is a 32 bit signed integer);
* `uint32` counters are `Nat` with an explicit `% 2 ^ 32` where the code adds;
* the file system, the HTTP transport and the archive services are explicit
  state (`World`) and explicit functions (`Externals`);
* `gmtime` and `strftime` of the C library are modelled on `Nat` seconds.
-/

namespace ServerIconExportUpdateProcess

/-! ## Status codes and constants -/

/-- The type `status_t` (a 32 bit signed integer). -/
abbrev status_t := Int

/-- Modelled from the spec: the status `OK`, `B_OK` of support/Errors.h (the
header is not among the sources); its value there is 0. -/
def B_OK : status_t := 0

/-- Modelled from the spec: the generic error status, `B_ERROR` of
support/Errors.h (not among the sources); its value there is -1. -/
def B_ERROR : status_t := -1

/-- Modelled from the spec: `INT_MIN` of `<limits.h>` for the 32 bit `int`, the
base of the error codes of support/Errors.h (not among the sources). -/
def INT_MIN : Int := -2147483648

/-- Modelled from the spec: `B_GENERAL_ERROR_BASE` of support/Errors.h (not
among the sources), defined there as `INT_MIN`. -/
def B_GENERAL_ERROR_BASE : Int := INT_MIN

/-- Modelled from the spec: `B_APP_ERROR_BASE` of support/Errors.h (not among
the sources), defined there as `B_GENERAL_ERROR_BASE + 0x2000`. -/
def B_APP_ERROR_BASE : Int := B_GENERAL_ERROR_BASE + 0x2000

/-- Modelled from the spec: `B_STORAGE_ERROR_BASE` of support/Errors.h (not
among the sources), defined there as `B_GENERAL_ERROR_BASE + 0x6000`. -/
def B_STORAGE_ERROR_BASE : Int := B_GENERAL_ERROR_BASE + 0x6000

/-- Modelled from the spec: the status `IOError`, `B_IO_ERROR` of
support/Errors.h (not among the sources), defined there as
`B_GENERAL_ERROR_BASE + 1`. -/
def B_IO_ERROR : status_t := B_GENERAL_ERROR_BASE + 1

/-- Modelled from the spec: the status `NotFound`, `B_FILE_NOT_FOUND` of
support/Errors.h (not among the sources), defined there as
`B_STORAGE_ERROR_BASE + 1`; the spec has it distinct from the generic error. -/
def B_FILE_NOT_FOUND : status_t := B_STORAGE_ERROR_BASE + 1

/-- Modelled from the spec: `ENOENT` of `<errno.h>` (not among the sources),
the `errno` of `stat` for a file that does not exist; on this system it is
`B_ENTRY_NOT_FOUND`, `B_STORAGE_ERROR_BASE + 3`. -/
def ENOENT : Int := B_STORAGE_ERROR_BASE + 3

/-- `#define MAX_REDIRECTS 3` -/
def MAX_REDIRECTS : Nat := 3

/-- `#define MAX_FAILURES 2` -/
def MAX_FAILURES : Nat := 2

/-- `#define HTTP_STATUS_OK 200` -/
def HTTP_STATUS_OK : Int := 200

/-- `#define HTTP_STATUS_FOUND 302` -/
def HTTP_STATUS_FOUND : Int := 302

/-- `#define HTTP_STATUS_NOT_MODIFIED 304` -/
def HTTP_STATUS_NOT_MODIFIED : Int := 304

/-- `#define APP_ERR_NOT_MODIFIED (B_APP_ERROR_BASE + 452)` -/
def APP_ERR_NOT_MODIFIED : status_t := B_APP_ERROR_BASE + 452

/-! ## The C library: `gmtime` and `strftime` -/

/-- Modelled from the spec: the broken-down time `struct tm` of `<time.h>`
(the C library is not among the sources), the "calendar representation in
UTC" of the spec.  All fields are non-negative for the times handled here (at
or after the epoch). -/
structure tm where
  tm_sec : Nat
  tm_min : Nat
  tm_hour : Nat
  tm_mday : Nat
  tm_mon : Nat
  tm_year : Nat
  tm_wday : Nat
  tm_gmtoff : Int
deriving DecidableEq, Repr

/-- Lengths of the months of a year that starts on 1 March. -/
def days_in_month : List Nat := [31, 30, 31, 30, 31, 31, 30, 31, 30, 31, 31, 29]

/-- The month walk of `gmtime`: subtract whole months (counted from March)
from the day of the year; returns the month index and the remaining days. -/
def monthWalk : List Nat → Nat → Nat → Nat × Nat
  | [], months, remdays => (months, remdays)
  | len :: rest, months, remdays =>
    if len ≤ remdays then monthWalk rest (months + 1) (remdays - len)
    else (months, remdays)

/-- Modelled from the spec: the C library function `gmtime` (not among the
sources) for a time `t ≥ 0` in seconds since the epoch, which gives "the
corresponding calendar representation in UTC".  Days are counted from
0000-03-01 and divided into 400, 100, 4 and 1 year cycles. -/
def gmtime (t : Nat) : tm :=
  let days := t / 86400
  let remsecs := t % 86400
  let z := days + 719468
  let qc_cycles := z / 146097
  let r400 := z % 146097
  let c_cycles := min (r400 / 36524) 3
  let r100 := r400 - c_cycles * 36524
  let q_cycles := min (r100 / 1461) 24
  let r4 := r100 - q_cycles * 1461
  let remyears := min (r4 / 365) 3
  let remdays := r4 - remyears * 365
  let years := remyears + 4 * q_cycles + 100 * c_cycles + 400 * qc_cycles
  let mw := monthWalk days_in_month 0 remdays
  let year := if mw.1 ≥ 10 then years + 1 else years
  let mon := if mw.1 ≥ 10 then mw.1 - 10 else mw.1 + 2
  { tm_sec := remsecs % 60
    tm_min := remsecs / 60 % 60
    tm_hour := remsecs / 3600
    tm_mday := mw.2 + 1
    tm_mon := mon
    tm_year := year - 1900
    tm_wday := (days + 4) % 7
    tm_gmtoff := 0 }

/-- Abbreviated weekday names of the C locale (`%a`), as one string of
three letters per day, Sunday first. -/
def wdayNames : List Char := "SunMonTueWedThuFriSat".toList

/-- Abbreviated month names of the C locale (`%b`), three letters each. -/
def monNames : List Char := "JanFebMarAprMayJunJulAugSepOctNovDec".toList

/-- The i-th three letter name of a table of names. -/
def abbrev3 (names : List Char) (i : Nat) : List Char :=
  (names.drop (3 * i)).take 3

/-- The character of a decimal digit. -/
def digitChar (d : Nat) : Char := Char.ofNat (48 + d)

/-- A number printed with two decimal digits (`%02d`). -/
def pad2 (n : Nat) : List Char := [digitChar (n / 10 % 10), digitChar (n % 10)]

/-- A number printed in decimal, most significant digit first (`%d`). -/
def decimal (n : Nat) : List Char := ((Nat.digits 10 n).reverse).map digitChar

/-- One conversion specification of `strftime` (C locale). -/
def strftimeConv (c : Char) (t : tm) : List Char :=
  if c = Char.ofNat 97 then abbrev3 wdayNames t.tm_wday              -- %a
  else if c = Char.ofNat 98 then abbrev3 monNames t.tm_mon           -- %b
  else if c = Char.ofNat 100 then pad2 t.tm_mday                     -- %d
  else if c = Char.ofNat 89 then decimal (1900 + t.tm_year)          -- %Y
  else if c = Char.ofNat 84 then                                     -- %T
    pad2 t.tm_hour ++ ":".toList ++ pad2 t.tm_min ++ ":".toList ++ pad2 t.tm_sec
  else if c = Char.ofNat 122 then                                    -- %z
    (if t.tm_gmtoff < 0 then "-".toList else "+".toList)
      ++ pad2 (t.tm_gmtoff.natAbs / 3600) ++ pad2 (t.tm_gmtoff.natAbs / 60 % 60)
  else []

/-- The expansion of a `strftime` format: a percent sign starts a conversion
specification, every other character is copied. -/
def strftimeExpand : List Char → tm → List Char
  | [], _ => []
  | [c], _ => [c]
  | c :: d :: rest, t =>
    if c = Char.ofNat 37 then strftimeConv d t ++ strftimeExpand rest t
    else c :: strftimeExpand (d :: rest) t

/-- Modelled from the spec: the C library function
`strftime(output, maxsize, format, tm)` (not among the sources), which
formats the calendar representation "per RFC 2822 date syntax": the
array receives the expansion when it fits together with the terminating
NUL; otherwise the content is unspecified and the array is taken as left with
`output[0] = 0`, the empty string. -/
def strftime (maxsize : Nat) (format : String) (t : tm) : List Char :=
  let s := strftimeExpand format.toList t
  if s.length + 1 ≤ maxsize then s else []

/-- `_TimestampToRfc2822String(timestampMillis, rfc2822String)`: the value
stored in `rfc2822String`.  `time_t` is taken to be 64 bits wide, so that
`timestampMillis / 1000` is represented exactly. -/
def _TimestampToRfc2822String (timestampMillis : Nat) : String :=
  let t := timestampMillis / 1000
  String.mk (strftime 256 "%a, %d %b %Y %T %z" (gmtime t))

/-! ## The world outside the process -/

/-- Modelled from the spec: a URL, the class `BUrl` (not among the sources),
identified by the string it was built from. -/
structure BUrl where
  urlString : String
deriving DecidableEq, Repr

/-- An HTTP GET request as issued by `_Download`: the URL and the value of
the `If-Modified-Since` header when that header was added.  The headers of
`ServerSettings::AugmentHeaders` are the same for every request and are
left out. -/
structure Request where
  url : BUrl
  ifModifiedSince : Option String
deriving DecidableEq, Repr

/-- The part of a `BHttpResult` the process looks at: the status code
(`int32`, 0 when the transport failed) and the `Location` header
(`none` for a NULL pointer). -/
structure Response where
  statusCode : Int
  location : Option String
deriving DecidableEq, Repr

/-- Modelled from the spec: the class `IconMetaData` (not among the
sources), the IconMetadata of the spec with its two timestamps, here `uint64`
values. -/
structure IconMetaData where
  createTimestamp : Nat
  dataModifiedTimestamp : Nat
deriving DecidableEq, Repr

/-- The services the process calls and whose code is outside this file.
`Mirror` is the content of the local storage directory, `TmpFile` the
content of the temporary archive file, `Message` a `BMessage` and `Stream`
a `BDataIO`.  Paths given to `stat` and `AppendToString` are relative to the
local storage directory.  `transport` maps the requests issued so far (the
last one being the current request) to the result of the current request.
`FindDouble` gives the value found already converted by the `(uint64)` cast. -/
structure Externals (Mirror TmpFile Message Stream : Type) where
  CreateFullUrl : String → String
  stat : Mirror → String → Int × Int
  AppendToString : Mirror → String → status_t × String
  Parse : String → status_t × Message
  FindDouble : Message → String → status_t × Nat
  transport : List Request → Response
  listener : TmpFile → Response → TmpFile
  RemoveDirectoryContents : Mirror → Mirror
  CreateDecompressingInputStream : TmpFile → status_t × Stream
  Unpack : Stream → Mirror → status_t × Mirror
  remove : TmpFile → Int × TmpFile

/-- The state the process acts on: the local storage directory, the
temporary archive file, and a record of what has been done (the requests
issued, oldest first, and how often the header value was looked up, the
directory content removed and an archive unpacked). -/
structure World (Mirror TmpFile : Type) where
  mirror : Mirror
  tarGz : TmpFile
  requests : List Request
  lookups : Nat
  removals : Nat
  unpacks : Nat

section Process

variable {Mirror TmpFile Message Stream : Type}

/-- `_PopulateIconMetaData(iconMetaData, message)` -/
def _PopulateIconMetaData_message (E : Externals Mirror TmpFile Message Stream)
    (iconMetaData : IconMetaData) (message : Message) : status_t × IconMetaData :=
  let result := B_OK
  let (result, value) :=
    if result = B_OK then E.FindDouble message "createTimestamp" else (result, 0)
  let iconMetaData :=
    if result = B_OK then { iconMetaData with createTimestamp := value } else iconMetaData
  let (result, value) :=
    if result = B_OK then E.FindDouble message "dataModifiedTimestamp" else (result, value)
  let iconMetaData :=
    if result = B_OK then { iconMetaData with dataModifiedTimestamp := value }
    else iconMetaData
  (result, iconMetaData)

/-- `_PopulateIconMetaData(iconMetaData, jsonString)` -/
def _PopulateIconMetaData_string (E : Externals Mirror TmpFile Message Stream)
    (iconMetaData : IconMetaData) (jsonString : String) : status_t × IconMetaData :=
  let (result, infoMetaDataMessage) := E.Parse jsonString
  if result = B_OK then _PopulateIconMetaData_message E iconMetaData infoMetaDataMessage
  else (result, iconMetaData)

/-- `_PopulateIconMetaData(iconMetaData, path)` -/
def _PopulateIconMetaData_path (E : Externals Mirror TmpFile Message Stream)
    (mirror : Mirror) (iconMetaData : IconMetaData) (path : String) :
    status_t × IconMetaData :=
  let (result, infoMetaDataStr) := E.AppendToString mirror path
  if result = B_OK then _PopulateIconMetaData_string E iconMetaData infoMetaDataStr
  else (result, iconMetaData)

/-- `_IfModifiedSinceHeaderValue(headerValue, iconMetaDataPath)`: the status
and the value left in `headerValue`.  `stat` gives its return value and
`errno`. -/
def _IfModifiedSinceHeaderValue_path (E : Externals Mirror TmpFile Message Stream)
    (mirror : Mirror) (iconMetaDataPath : String) : status_t × String :=
  let headerValue := ""
  let s := E.stat mirror iconMetaDataPath
  if -1 = s.1 then
    if ENOENT ≠ s.2 then (B_ERROR, headerValue)
    else (B_FILE_NOT_FOUND, headerValue)
  else
    let (result, iconMetaData) :=
      _PopulateIconMetaData_path E mirror ⟨0, 0⟩ iconMetaDataPath
    if result = B_OK then
      (result, _TimestampToRfc2822String iconMetaData.dataModifiedTimestamp)
    else (result, headerValue)

/-- `_IfModifiedSinceHeaderValue(headerValue)` -/
def _IfModifiedSinceHeaderValue (E : Externals Mirror TmpFile Message Stream)
    (mirror : Mirror) : status_t × String :=
  _IfModifiedSinceHeaderValue_path E mirror "hicn/info.json"

/-- The request `_Download` builds for a URL: `If-Modified-Since` is added
when the lookup gave `B_OK` and a non-empty value. -/
def buildRequest (E : Externals Mirror TmpFile Message Stream) (mirror : Mirror)
    (url : BUrl) : Request :=
  let h := _IfModifiedSinceHeaderValue E mirror
  { url := url
    ifModifiedSince := if h.1 = B_OK ∧ h.2.length > 0 then some h.2 else none }

/-- The world after `_Download` has looked up the header value, run the
request for `url` and waited for it: the lookup and the request are
recorded and the listener has written to the temporary file. -/
def afterRequest (E : Externals Mirror TmpFile Message Stream) (url : BUrl)
    (w : World Mirror TmpFile) : World Mirror TmpFile :=
  let requests := w.requests ++ [buildRequest E w.mirror url]
  { w with
    lookups := w.lookups + 1
    requests := requests
    tarGz := E.listener w.tarGz (E.transport requests) }

/-- The result of the request `_Download` runs for `url` in world `w`. -/
def resultOf (E : Externals Mirror TmpFile Message Stream) (url : BUrl)
    (w : World Mirror TmpFile) : Response :=
  E.transport (w.requests ++ [buildRequest E w.mirror url])

/-- `_Download(tarGzFilePath, url, redirects, failures)`: the returned status
and the world afterwards. -/
def _Download (E : Externals Mirror TmpFile Message Stream) (url : BUrl)
    (redirects failures : Nat) (w : World Mirror TmpFile) :
    status_t × World Mirror TmpFile :=
  if redirects > MAX_REDIRECTS then (B_IO_ERROR, w)
  else if failures > MAX_FAILURES then (B_IO_ERROR, w)
  else
    let result := resultOf E url w
    let w1 := afterRequest E url w
    let statusCode := result.statusCode
    if statusCode = HTTP_STATUS_OK then (B_OK, w1)
    else if statusCode = HTTP_STATUS_NOT_MODIFIED then (APP_ERR_NOT_MODIFIED, w1)
    else if statusCode = HTTP_STATUS_FOUND then
      match result.location with
      | some locationValue =>
        if 0 ≠ locationValue.length then
          _Download E ⟨locationValue⟩ ((redirects + 1) % 2 ^ 32) 0 w1
        else (B_IO_ERROR, w1)
      | none => (B_IO_ERROR, w1)
    else if 0 = statusCode ∨ 5 = statusCode.tdiv 100 then
      _Download E url redirects ((failures + 1) % 2 ^ 32) w1
    else (B_IO_ERROR, w1)
termination_by (MAX_REDIRECTS + 1 - redirects, MAX_FAILURES + 1 - failures)
decreasing_by
  all_goals simp_wf
  · have h : redirects ≤ 3 := by simp only [MAX_REDIRECTS] at *; omega
    left
    simp only [MAX_REDIRECTS]
    omega
  · have h : failures ≤ 2 := by simp only [MAX_FAILURES] at *; omega
    right
    simp only [MAX_FAILURES]
    omega

/-- `_Download(tarGzFilePath)` -/
def _Download_path (E : Externals Mirror TmpFile Message Stream)
    (w : World Mirror TmpFile) : status_t × World Mirror TmpFile :=
  let urlString := E.CreateFullUrl "/__pkgicon/all.tar.gz"
  _Download E ⟨urlString⟩ 0 0 w

/-- `Run()`: the returned status and the world afterwards. -/
def Run (E : Externals Mirror TmpFile Message Stream) (w : World Mirror TmpFile) :
    status_t × World Mirror TmpFile :=
  let (result, w) := _Download_path E w
  if result ≠ APP_ERR_NOT_MODIFIED then
    if result ≠ B_OK then (result, w)
    else
      let w := { w with
        mirror := E.RemoveDirectoryContents w.mirror
        removals := w.removals + 1 }
      let (result, tarIn) := E.CreateDecompressingInputStream w.tarGz
      if result = B_OK then
        let (result, mirror) := E.Unpack tarIn w.mirror
        let w := { w with mirror := mirror, unpacks := w.unpacks + 1 }
        if result = B_OK then (result, { w with tarGz := (E.remove w.tarGz).2 })
        else (result, w)
      else (result, w)
  else (result, w)

end Process

section Accounting

variable {Mirror TmpFile Message Stream : Type}

/-- The requests an attempt with the given counters can still issue. -/
def budget (r f : Nat) : Nat :=
  if r ≤ MAX_REDIRECTS ∧ f ≤ MAX_FAILURES then
    (MAX_REDIRECTS - r) * (MAX_FAILURES + 1) + (MAX_FAILURES + 1 - f)
  else 0

/-- What every call of `_Download` does to the world. -/
structure Summary (E : Externals Mirror TmpFile Message Stream) (r f : Nat)
    (w w' : World Mirror TmpFile) : Prop where
  requests : ∃ l : List Request, w'.requests = w.requests ++ l ∧ l.length ≤ budget r f ∧
    w'.lookups = w.lookups + l.length ∧
    ∀ q ∈ l, q.ifModifiedSince = (buildRequest E w.mirror ⟨""⟩).ifModifiedSince
  mirror : w'.mirror = w.mirror
  removals : w'.removals = w.removals
  unpacks : w'.unpacks = w.unpacks

end Accounting

/-! ## Vocabulary of the specification -/

/-- A transient status: 0 (the transport failed) or any 5xx. -/
def isTransient (s : Int) : Prop := s = 0 ∨ (500 ≤ s ∧ s ≤ 599)

instance (s : Int) : Decidable (isTransient s) := by
  unfold isTransient
  infer_instance

/-- The transport of `E` follows a script: it answers the i-th request of a
run that starts with an empty record with the status code of the i-th entry
and, when that is a 302, with its `Location` header. -/
def answers {Mirror TmpFile Message Stream : Type}
    (E : Externals Mirror TmpFile Message Stream) (script : List Response) : Prop :=
  ∀ (requests : List Request) (i : Nat) (r : Response),
    requests.length = i + 1 → script.get? i = some r →
      (E.transport requests).statusCode = r.statusCode ∧
      (r.statusCode = 302 → (E.transport requests).location = r.location)

/-! ## RFC 2822 date-time, read back

The reader accepts the fixed form of the `date-time` production of RFC 2822
(section 3.3) with the day of the week and the seconds present and one
space for each folding white space:

    day-name "," SP 2DIGIT SP month-name SP 4*DIGIT SP
      2DIGIT ":" 2DIGIT ":" 2DIGIT SP ( "+" / "-" ) 4DIGIT

It checks the ranges the RFC asks for (day of the month, time of day, zone
minutes, the day of the week being that of the date) and computes the time
by the POSIX formula for the seconds since the epoch. -/

/-- Days before the first day of each month in a common year. -/
def cumDays : List Nat := [0, 31, 59, 90, 120, 151, 181, 212, 243, 273, 304, 334]

/-- Number of days of each month in a common year. -/
def monthDays : List Nat := [31, 28, 31, 30, 31, 30, 31, 31, 30, 31, 30, 31]

/-- Gregorian leap year: 1 for a leap year, 0 otherwise. -/
def leapDay (year : Nat) : Nat :=
  if year % 4 = 0 ∧ (year % 100 ≠ 0 ∨ year % 400 = 0) then 1 else 0

/-- Number of days of a month (0 = January) of a year. -/
def monthLength (year mon : Nat) : Nat :=
  monthDays.getD mon 0 + (if mon = 1 then leapDay year else 0)

/-- Day of the year (0 = 1 January) of a date. -/
def yearDay (year mon mday : Nat) : Nat :=
  cumDays.getD mon 0 + (if 2 ≤ mon then leapDay year else 0) + (mday - 1)

/-- POSIX "seconds since the epoch" of a broken-down UTC time with
`tm_year ≥ 70` (years since 1900):
`tm_sec + tm_min*60 + tm_hour*3600 + tm_yday*86400 + (tm_year-70)*31536000 +
((tm_year-69)/4)*86400 - ((tm_year-1)/100)*86400 + ((tm_year+299)/400)*86400`. -/
def secondsSinceEpoch (tm_sec tm_min tm_hour tm_yday tm_year : Nat) : Nat :=
  tm_sec + tm_min * 60 + tm_hour * 3600 + tm_yday * 86400 + (tm_year - 70) * 31536000
    + ((tm_year - 69) / 4) * 86400 + ((tm_year + 299) / 400) * 86400
    - ((tm_year - 1) / 100) * 86400

/-- The value of a decimal digit character. -/
def digitVal (c : Char) : Option Nat :=
  if 48 ≤ c.toNat ∧ c.toNat ≤ 57 then some (c.toNat - 48) else none

/-- The leading decimal digits of a text and the rest of the text. -/
def takeDigits : List Char → List Nat × List Char
  | [] => ([], [])
  | c :: cs =>
    match digitVal c with
    | some d => (d :: (takeDigits cs).1, (takeDigits cs).2)
    | none => ([], c :: cs)

/-- Reads a fixed text. -/
def expect (cs s : List Char) : Option (List Char) :=
  if s.take cs.length = cs then some (s.drop cs.length) else none

/-- Reads one of the first `count` three letter names of a table. -/
def name3 (names : List Char) (count : Nat) (s : List Char) : Option (Nat × List Char) :=
  match (List.range count).find? (fun i => decide (abbrev3 names i = s.take 3)) with
  | some i => some (i, s.drop 3)
  | none => none

/-- Reads a number of exactly two digits. -/
def twoDigits : List Char → Option (Nat × List Char)
  | a :: b :: rest =>
    match digitVal a, digitVal b with
    | some x, some y => some (10 * x + y, rest)
    | _, _ => none
  | _ => none

/-- Reads a number of at least `minDigits` digits. -/
def number (minDigits : Nat) (s : List Char) : Option (Nat × List Char) :=
  if minDigits ≤ (takeDigits s).1.length then
    some (Nat.ofDigits 10 (takeDigits s).1.reverse, (takeDigits s).2)
  else none

/-- Reads the sign of a zone. -/
def zoneSign (s : List Char) : Option (Int × List Char) :=
  match expect "+".toList s with
  | some rest => some (1, rest)
  | none =>
    match expect "-".toList s with
    | some rest => some (-1, rest)
    | none => none

/-- The time in milliseconds since the epoch of the fields of a date-time,
when they name an existing date and time not before 1970. -/
def dateTimeMillis (wday mday mon year hour min sec : Nat) (sign : Int)
    (zoneHour zoneMin : Nat) : Option Int :=
  let secs := secondsSinceEpoch sec min hour (yearDay year mon mday) (year - 1900)
  if 1970 ≤ year ∧ 1 ≤ mday ∧ mday ≤ monthLength year mon ∧ hour ≤ 23 ∧ min ≤ 59
      ∧ sec ≤ 60 ∧ zoneMin ≤ 59 ∧ (secs / 86400 + 4) % 7 = wday then
    some (((secs : Int) - sign * ((zoneHour : Int) * 3600 + (zoneMin : Int) * 60)) * 1000)
  else none

/-- Reads the time of day and the zone, `HH:MM:SS (+|-)HHMM`, up to the end
of the text, and gives the time of the whole date-time. -/
def parseTime (wday mday mon year : Nat) (s : List Char) : Option Int :=
  (twoDigits s).bind fun hour =>
  (expect ":".toList hour.2).bind fun s1 =>
  (twoDigits s1).bind fun min =>
  (expect ":".toList min.2).bind fun s2 =>
  (twoDigits s2).bind fun sec =>
  (expect " ".toList sec.2).bind fun s3 =>
  (zoneSign s3).bind fun sign =>
  (twoDigits sign.2).bind fun zoneHour =>
  (twoDigits zoneHour.2).bind fun zoneMin =>
  if zoneMin.2 = [] then
    dateTimeMillis wday mday mon year hour.1 min.1 sec.1 sign.1 zoneHour.1 zoneMin.1
  else none

/-- Reads an RFC 2822 date-time and gives its time in milliseconds since
the epoch; `none` when the text is not a date-time of the form above, or
names a date that does not exist, or a year before 1970. -/
def parseRfc2822 (s : List Char) : Option Int :=
  (name3 wdayNames 7 s).bind fun wday =>
  (expect ", ".toList wday.2).bind fun s1 =>
  (twoDigits s1).bind fun mday =>
  (expect " ".toList mday.2).bind fun s2 =>
  (name3 monNames 12 s2).bind fun mon =>
  (expect " ".toList mon.2).bind fun s3 =>
  (number 4 s3).bind fun year =>
  (expect " ".toList year.2).bind fun s4 =>
  parseTime wday.1 mday.1 mon.1 year.1 s4

/-- The text written for a broken-down time with offset 0. -/
def textOf (g : tm) : List Char :=
  abbrev3 wdayNames g.tm_wday ++ (", ".toList ++ (pad2 g.tm_mday ++ (" ".toList ++
    (abbrev3 monNames g.tm_mon ++ (" ".toList ++ (decimal (1900 + g.tm_year) ++ (" ".toList ++
    (pad2 g.tm_hour ++ (":".toList ++ (pad2 g.tm_min ++ (":".toList ++
    (pad2 g.tm_sec ++ (" ".toList ++ ("+".toList ++ (pad2 0 ++ pad2 0)))))))))))))))

/-! ## A test double -/

/-- A stub of the outside services.  The mirror is the text of
`hicn/info.json` when that file exists; every text that parses carries the
timestamp 1414179147000; the transport answers from a list of canned
responses (200 once the list is used up); unpacking stores a new `info.json`. -/
def stub (responses : List Response) : Externals (Option String) Unit String Unit where
  CreateFullUrl := fun path => "https://depot.haiku-os.org" ++ path
  stat := fun m _ => if m.isSome then (0, 0) else (-1, ENOENT)
  AppendToString := fun m _ =>
    match m with
    | some text => (B_OK, text)
    | none => (B_FILE_NOT_FOUND, "")
  Parse := fun text => (if text.length = 0 then B_ERROR else B_OK, text)
  FindDouble := fun _ _ => (B_OK, 1414179147000)
  transport := fun requests => responses.getD (requests.length - 1) ⟨200, none⟩
  listener := fun _ _ => ()
  RemoveDirectoryContents := fun _ => none
  CreateDecompressingInputStream := fun _ => (B_OK, ())
  Unpack := fun _ _ => (B_OK, some "info")
  remove := fun _ => (0, ())

/-- A world for the stub: the given mirror, nothing done yet. -/
def stubWorld (mirror : Option String) : World (Option String) Unit :=
  { mirror := mirror, tarGz := (), requests := [], lookups := 0, removals := 0, unpacks := 0 }

/-! # Properties -/

/-! ## One attempt of `_Download` -/

section Attempt

variable {Mirror TmpFile Message Stream : Type}

theorem tdiv_hundred_eq_five (s : Int) : 5 = s.tdiv 100 ↔ (500 ≤ s ∧ s ≤ 599) := by
  constructor
  · intro h
    rcases Int.lt_or_le s 0 with hs | hs
    · obtain ⟨n, rfl⟩ : ∃ n : Nat, s = -(n : Int) := ⟨s.natAbs, by omega⟩
      rw [Int.neg_tdiv] at h
      have : (0:Int) ≤ (n : Int).tdiv 100 := Int.tdiv_nonneg (by omega) (by omega)
      omega
    · rw [Int.tdiv_eq_ediv hs (by omega)] at h
      omega
  · rintro ⟨h1, h2⟩
    rw [Int.tdiv_eq_ediv (by omega) (by omega)]
    omega

theorem string_eq_empty_of_length (L : String) (h : L.length = 0) : L = "" := by
  cases L with
  | mk data =>
    have hd : data = [] := List.length_eq_zero.mp h
    subst hd
    rfl

theorem download_exceeded (E : Externals Mirror TmpFile Message Stream) (url : BUrl)
    (r f : Nat) (w : World Mirror TmpFile) (h : MAX_REDIRECTS < r ∨ MAX_FAILURES < f) :
    _Download E url r f w = (B_IO_ERROR, w) := by
  rw [_Download]
  rcases h with h | h
  · simp [h]
  · simp [h]

theorem download_ok (E : Externals Mirror TmpFile Message Stream) (url : BUrl)
    (r f : Nat) (w : World Mirror TmpFile) (hr : r ≤ MAX_REDIRECTS) (hf : f ≤ MAX_FAILURES)
    (hs : (resultOf E url w).statusCode = 200) :
    _Download E url r f w = (B_OK, afterRequest E url w) := by
  rw [_Download]
  simp [Nat.not_lt.mpr hr, Nat.not_lt.mpr hf, hs, HTTP_STATUS_OK]

theorem download_not_modified (E : Externals Mirror TmpFile Message Stream) (url : BUrl)
    (r f : Nat) (w : World Mirror TmpFile) (hr : r ≤ MAX_REDIRECTS) (hf : f ≤ MAX_FAILURES)
    (hs : (resultOf E url w).statusCode = 304) :
    _Download E url r f w = (APP_ERR_NOT_MODIFIED, afterRequest E url w) := by
  rw [_Download]
  simp [Nat.not_lt.mpr hr, Nat.not_lt.mpr hf, hs, HTTP_STATUS_OK, HTTP_STATUS_NOT_MODIFIED]

theorem download_redirect (E : Externals Mirror TmpFile Message Stream) (url : BUrl)
    (r f : Nat) (w : World Mirror TmpFile) (hr : r ≤ MAX_REDIRECTS) (hf : f ≤ MAX_FAILURES)
    (hs : (resultOf E url w).statusCode = 302) (L : String)
    (hl : (resultOf E url w).location = some L) (hne : L ≠ "") :
    _Download E url r f w = _Download E ⟨L⟩ (r + 1) 0 (afterRequest E url w) := by
  rw [_Download]
  have hlen : 0 ≠ L.length := by
    intro h
    exact hne (string_eq_empty_of_length L h.symm)
  have hmod : (r + 1) % 2 ^ 32 = r + 1 := by
    simp only [MAX_REDIRECTS] at hr
    omega
  simp only [Nat.not_lt.mpr hr, Nat.not_lt.mpr hf, hs, HTTP_STATUS_OK, HTTP_STATUS_NOT_MODIFIED,
    HTTP_STATUS_FOUND, hl, hmod, hlen, if_true, if_false, gt_iff_lt, ne_eq, not_false_eq_true]
  simp

theorem download_redirect_fail (E : Externals Mirror TmpFile Message Stream) (url : BUrl)
    (r f : Nat) (w : World Mirror TmpFile) (hr : r ≤ MAX_REDIRECTS) (hf : f ≤ MAX_FAILURES)
    (hs : (resultOf E url w).statusCode = 302)
    (hl : (resultOf E url w).location = none ∨ (resultOf E url w).location = some "") :
    _Download E url r f w = (B_IO_ERROR, afterRequest E url w) := by
  rw [_Download]
  rcases hl with hl | hl <;>
  simp [Nat.not_lt.mpr hr, Nat.not_lt.mpr hf, hs, HTTP_STATUS_OK, HTTP_STATUS_NOT_MODIFIED,
    HTTP_STATUS_FOUND, hl]

theorem download_retry (E : Externals Mirror TmpFile Message Stream) (url : BUrl)
    (r f : Nat) (w : World Mirror TmpFile) (hr : r ≤ MAX_REDIRECTS) (hf : f ≤ MAX_FAILURES)
    (hs : isTransient (resultOf E url w).statusCode) :
    _Download E url r f w = _Download E url r (f + 1) (afterRequest E url w) := by
  rw [_Download]
  have hmod : (f + 1) % 2 ^ 32 = f + 1 := by
    simp only [MAX_FAILURES] at hf
    omega
  have h5 := tdiv_hundred_eq_five (resultOf E url w).statusCode
  have c : 0 = (resultOf E url w).statusCode ∨ 5 = (resultOf E url w).statusCode.tdiv 100 := by
    rcases hs with h | h
    · left; exact h.symm
    · right; exact h5.mpr h
  have n1 : (resultOf E url w).statusCode ≠ 200 := by
    rcases hs with h | h <;> omega
  have n2 : (resultOf E url w).statusCode ≠ 304 := by
    rcases hs with h | h <;> omega
  have n3 : (resultOf E url w).statusCode ≠ 302 := by
    rcases hs with h | h <;> omega
  simp only [Nat.not_lt.mpr hr, Nat.not_lt.mpr hf, HTTP_STATUS_OK, HTTP_STATUS_NOT_MODIFIED,
    HTTP_STATUS_FOUND, hmod, n1, n2, n3, c, if_true, if_false, gt_iff_lt]

theorem download_other (E : Externals Mirror TmpFile Message Stream) (url : BUrl)
    (r f : Nat) (w : World Mirror TmpFile) (hr : r ≤ MAX_REDIRECTS) (hf : f ≤ MAX_FAILURES)
    (n1 : (resultOf E url w).statusCode ≠ 200) (n2 : (resultOf E url w).statusCode ≠ 304)
    (n3 : (resultOf E url w).statusCode ≠ 302)
    (n4 : ¬ isTransient (resultOf E url w).statusCode) :
    _Download E url r f w = (B_IO_ERROR, afterRequest E url w) := by
  rw [_Download]
  have h5 := tdiv_hundred_eq_five (resultOf E url w).statusCode
  have c : ¬ (0 = (resultOf E url w).statusCode ∨ 5 = (resultOf E url w).statusCode.tdiv 100) := by
    rintro (h | h)
    · exact n4 (Or.inl h.symm)
    · exact n4 (Or.inr (h5.mp h))
  simp only [Nat.not_lt.mpr hr, Nat.not_lt.mpr hf, HTTP_STATUS_OK, HTTP_STATUS_NOT_MODIFIED,
    HTTP_STATUS_FOUND, n1, n2, n3, c, if_true, if_false, gt_iff_lt]

theorem download_step (E : Externals Mirror TmpFile Message Stream) (url : BUrl)
    (r f : Nat) (w : World Mirror TmpFile) (hr : r ≤ MAX_REDIRECTS) (hf : f ≤ MAX_FAILURES) :
    (∃ s, _Download E url r f w = (s, afterRequest E url w)) ∨
    (∃ L, _Download E url r f w = _Download E ⟨L⟩ (r + 1) 0 (afterRequest E url w)) ∨
    _Download E url r f w = _Download E url r (f + 1) (afterRequest E url w) := by
  by_cases h1 : (resultOf E url w).statusCode = 200
  · exact Or.inl ⟨_, download_ok E url r f w hr hf h1⟩
  by_cases h2 : (resultOf E url w).statusCode = 304
  · exact Or.inl ⟨_, download_not_modified E url r f w hr hf h2⟩
  by_cases h3 : (resultOf E url w).statusCode = 302
  · cases hl : (resultOf E url w).location with
    | none => exact Or.inl ⟨_, download_redirect_fail E url r f w hr hf h3 (Or.inl hl)⟩
    | some L =>
      by_cases hne : L = ""
      · subst hne
        exact Or.inl ⟨_, download_redirect_fail E url r f w hr hf h3 (Or.inr hl)⟩
      · exact Or.inr (Or.inl ⟨L, download_redirect E url r f w hr hf h3 L hl hne⟩)
  by_cases h4 : isTransient (resultOf E url w).statusCode
  · exact Or.inr (Or.inr (download_retry E url r f w hr hf h4))
  · exact Or.inl ⟨_, download_other E url r f w hr hf h1 h2 h3 h4⟩

theorem summary_afterRequest (E : Externals Mirror TmpFile Message Stream) (url : BUrl)
    (r f : Nat) (w : World Mirror TmpFile) (hr : r ≤ MAX_REDIRECTS) (hf : f ≤ MAX_FAILURES) :
    Summary E r f w (afterRequest E url w) := by
  refine ⟨⟨[buildRequest E w.mirror url], rfl, ?_, rfl, ?_⟩, rfl, rfl, rfl⟩
  · simp only [budget, MAX_REDIRECTS, MAX_FAILURES] at *
    rw [if_pos ⟨hr, hf⟩]
    simp only [List.length_singleton]
    omega
  · intro q hq
    rw [List.mem_singleton] at hq
    subst hq
    rfl

theorem summary_trans (E : Externals Mirror TmpFile Message Stream) (url : BUrl)
    (r f r' f' : Nat) (w w' : World Mirror TmpFile)
    (hb : budget r' f' + 1 ≤ budget r f)
    (h : Summary E r' f' (afterRequest E url w) w') : Summary E r f w w' := by
  obtain ⟨⟨l, hl, hlen, hlook, hhdr⟩, hm, hrm, hu⟩ := h
  refine ⟨⟨buildRequest E w.mirror url :: l, ?_, ?_, ?_, ?_⟩, ?_, ?_, ?_⟩
  · rw [hl]
    simp [afterRequest]
  · simp only [List.length_cons]
    omega
  · rw [hlook]
    simp only [afterRequest, List.length_cons]
    omega
  · intro q hq
    rcases List.mem_cons.mp hq with hq | hq
    · subst hq
      rfl
    · exact hhdr q hq
  · rw [hm]; rfl
  · rw [hrm]; rfl
  · rw [hu]; rfl

theorem download_summary (E : Externals Mirror TmpFile Message Stream) :
    ∀ (n : Nat) (url : BUrl) (r f : Nat) (w : World Mirror TmpFile), budget r f ≤ n →
      Summary E r f w (_Download E url r f w).2 := by
  intro n
  induction n with
  | zero =>
    intro url r f w hb
    have hex : MAX_REDIRECTS < r ∨ MAX_FAILURES < f := by
      simp only [budget, MAX_REDIRECTS, MAX_FAILURES] at *
      split_ifs at hb with hc
      · omega
      · omega
    rw [download_exceeded E url r f w hex]
    exact ⟨⟨[], by simp, by simp, by simp, by simp⟩, rfl, rfl, rfl⟩
  | succ n ih =>
    intro url r f w hb
    by_cases hin : r ≤ MAX_REDIRECTS ∧ f ≤ MAX_FAILURES
    · obtain ⟨hr, hf⟩ := hin
      have b1 : budget (r + 1) 0 + 1 ≤ budget r f := by
        simp only [budget, MAX_REDIRECTS, MAX_FAILURES] at hr hf ⊢
        split_ifs <;> omega
      have b2 : budget r (f + 1) + 1 ≤ budget r f := by
        simp only [budget, MAX_REDIRECTS, MAX_FAILURES] at hr hf ⊢
        split_ifs <;> omega
      rcases download_step E url r f w hr hf with ⟨s, h⟩ | ⟨L, h⟩ | h
      · rw [h]
        exact summary_afterRequest E url r f w hr hf
      · rw [h]
        exact summary_trans E url r f (r + 1) 0 w _ b1 (ih _ _ _ _ (by omega))
      · rw [h]
        exact summary_trans E url r f r (f + 1) w _ b2 (ih _ _ _ _ (by omega))
    · have hex : MAX_REDIRECTS < r ∨ MAX_FAILURES < f := by
        by_contra hc
        exact hin ⟨by omega, by omega⟩
      rw [download_exceeded E url r f w hex]
      exact ⟨⟨[], by simp, by simp, by simp, by simp⟩, rfl, rfl, rfl⟩

end Attempt

/-! ## Retries, redirects and the claims about `_Download` and `Run` -/

section Fetch

variable {Mirror TmpFile Message Stream : Type}

theorem buildRequest_header (E : Externals Mirror TmpFile Message Stream) (m : Mirror)
    (u v : BUrl) : (buildRequest E m u).ifModifiedSince = (buildRequest E m v).ifModifiedSince :=
  rfl

theorem iterate_afterRequest (E : Externals Mirror TmpFile Message Stream) (url : BUrl) :
    ∀ (j : Nat) (w : World Mirror TmpFile),
      ((afterRequest E url)^[j] w).requests
          = w.requests ++ List.replicate j (buildRequest E w.mirror url) ∧
        ((afterRequest E url)^[j] w).mirror = w.mirror := by
  intro j
  induction j with
  | zero => intro w; simp
  | succ j ih =>
    intro w
    rw [Function.iterate_succ_apply]
    obtain ⟨h1, h2⟩ := ih (afterRequest E url w)
    refine ⟨?_, ?_⟩
    · rw [h1]
      simp [afterRequest, List.replicate_succ]
    · rw [h2]
      rfl

theorem download_retries (E : Externals Mirror TmpFile Message Stream) (url : BUrl) (r : Nat)
    (hr : r ≤ MAX_REDIRECTS) :
    ∀ (j f : Nat) (w : World Mirror TmpFile), f + j ≤ MAX_FAILURES + 1 →
      (∀ i, i < j → isTransient (E.transport
        (w.requests ++ List.replicate (i + 1) (buildRequest E w.mirror url))).statusCode) →
      _Download E url r f w = _Download E url r (f + j) ((afterRequest E url)^[j] w) := by
  intro j
  induction j with
  | zero => intro f w _ _; rfl
  | succ j ih =>
    intro f w hfj ht
    have hf : f ≤ MAX_FAILURES := by omega
    have h0 : isTransient (resultOf E url w).statusCode := by
      have := ht 0 (by omega)
      simpa [resultOf] using this
    rw [download_retry E url r f w hr hf h0, Function.iterate_succ_apply,
      ih (f + 1) (afterRequest E url w) (by omega)]
    · congr 1
      omega
    · intro i hi
      have := ht (i + 1) (by omega)
      simpa [afterRequest, List.replicate_succ] using this

theorem stub_transport_later (responses : List Response) (requests : List Request)
    (h : responses.length < requests.length) :
    (stub responses).transport requests = ⟨200, none⟩ := by
  have h1 : responses.length ≤ requests.length - 1 := by omega
  simp [stub, List.getD, List.getElem?_eq_none h1]

/-- C2: for every URL and every `k`, when the transport answers the first
`k` requests of a run with a transient status (0 or 5xx) and every later
request with 200: if `k ≤ MAX_FAILURES` (2), `_Download` returns `B_OK`
(Fetched) after exactly `k + 1` requests, all to the same URL; if `k ≥ 3`,
it returns `B_IO_ERROR` after exactly 3 requests to that URL, and no 4th
request is issued. -/
theorem download_transient_then_ok (E : Externals Mirror TmpFile Message Stream)
    (url : BUrl) (w : World Mirror TmpFile) (k : Nat) (hw : w.requests = [])
    (hfirst : ∀ requests : List Request, 1 ≤ requests.length → requests.length ≤ k →
      isTransient (E.transport requests).statusCode)
    (hlater : ∀ requests : List Request, k < requests.length →
      (E.transport requests).statusCode = 200) :
    (k ≤ MAX_FAILURES →
      (_Download E url 0 0 w).1 = B_OK ∧
      (_Download E url 0 0 w).2.requests.map Request.url = List.replicate (k + 1) url) ∧
    (MAX_FAILURES < k →
      (_Download E url 0 0 w).1 = B_IO_ERROR ∧
      (_Download E url 0 0 w).2.requests.map Request.url = List.replicate 3 url) := by
  have hr0 : (0 : Nat) ≤ MAX_REDIRECTS := Nat.zero_le _
  have hreq : ∀ j, ((afterRequest E url)^[j] w).requests
      = List.replicate j (buildRequest E w.mirror url) := by
    intro j
    rw [(iterate_afterRequest E url j w).1, hw, List.nil_append]
  have hmir : ∀ j, ((afterRequest E url)^[j] w).mirror = w.mirror :=
    fun j => (iterate_afterRequest E url j w).2
  have hurls : ∀ j, (List.replicate j (buildRequest E w.mirror url)).map Request.url
      = List.replicate j url := by
    intro j
    rw [List.map_replicate]
    rfl
  constructor
  · intro hk
    have hchain := download_retries E url 0 hr0 k 0 w (by omega) (by
      intro i hi
      apply hfirst
      · simp [hw]
      · simp [hw]; omega)
    have hok : (resultOf E url ((afterRequest E url)^[k] w)).statusCode = 200 := by
      apply hlater
      simp [hreq]
    rw [hchain, Nat.zero_add, download_ok E url 0 k _ hr0 hk hok]
    refine ⟨rfl, ?_⟩
    show (((afterRequest E url)^[k] w).requests
      ++ [buildRequest E ((afterRequest E url)^[k] w).mirror url]).map Request.url = _
    rw [hreq, hmir, List.map_append, hurls, List.replicate_succ']
    rfl
  · intro hk
    have hchain := download_retries E url 0 hr0 3 0 w (by simp [MAX_FAILURES]) (by
      intro i hi
      apply hfirst
      · simp [hw]
      · simp only [MAX_FAILURES] at hk
        simp [hw]; omega)
    rw [hchain, download_exceeded E url 0 (0 + 3) _ (Or.inr (by simp [MAX_FAILURES]))]
    refine ⟨rfl, ?_⟩
    show ((afterRequest E url)^[3] w).requests.map Request.url = _
    rw [hreq, hurls]

theorem download_transient_then_ok_witness :
    (_Download (stub [⟨503, none⟩, ⟨503, none⟩]) ⟨"http://a/"⟩ 0 0 (stubWorld none)).1 = B_OK ∧
    (_Download (stub [⟨503, none⟩, ⟨503, none⟩]) ⟨"http://a/"⟩ 0 0
      (stubWorld none)).2.requests.map Request.url = List.replicate 3 ⟨"http://a/"⟩ :=
  (download_transient_then_ok (stub [⟨503, none⟩, ⟨503, none⟩]) ⟨"http://a/"⟩ (stubWorld none) 2
    rfl
    (by
      intro requests h1 h2
      have h : requests.length = 1 ∨ requests.length = 2 := by omega
      rcases h with h | h <;> simp [stub, h, isTransient])
    (by
      intro requests h1
      rw [stub_transport_later _ _ (by simpa using h1)])).1 (by decide)

/-- C1: when the download step ends with any status other than `B_OK` (the
outcome is not Fetched: `APP_ERR_NOT_MODIFIED` on a 304, or any error),
`Run` removes nothing from and unpacks nothing into the local storage
directory: the mirror after `Run` is the mirror before `Run`, and no removal
and no unpacking is recorded. -/
theorem run_leaves_mirror (E : Externals Mirror TmpFile Message Stream)
    (w : World Mirror TmpFile) (h : (_Download_path E w).1 ≠ B_OK) :
    (Run E w).2.mirror = w.mirror ∧ (Run E w).2.removals = w.removals ∧
      (Run E w).2.unpacks = w.unpacks := by
  have hs := download_summary E _ ⟨E.CreateFullUrl "/__pkgicon/all.tar.gz"⟩ 0 0 w (le_refl _)
  have hrun : (Run E w).2 = (_Download_path E w).2 := by
    unfold Run
    by_cases hn : (_Download_path E w).1 = APP_ERR_NOT_MODIFIED
    · simp [hn]
    · simp [hn, h]
  rw [hrun]
  exact ⟨hs.mirror, hs.removals, hs.unpacks⟩

theorem stub_not_found :
    _Download_path (stub [⟨404, none⟩]) (stubWorld (some "info"))
      = (B_IO_ERROR, afterRequest (stub [⟨404, none⟩])
          ⟨"https://depot.haiku-os.org/__pkgicon/all.tar.gz"⟩ (stubWorld (some "info"))) := by
  unfold _Download_path
  have hu : (stub [⟨404, none⟩]).CreateFullUrl "/__pkgicon/all.tar.gz"
      = "https://depot.haiku-os.org/__pkgicon/all.tar.gz" := by decide
  rw [hu]
  apply download_other _ _ 0 0 _ (Nat.zero_le _) (Nat.zero_le _) <;>
    simp [resultOf, stub, stubWorld, isTransient]

theorem run_leaves_mirror_witness :
    (Run (stub [⟨404, none⟩]) (stubWorld (some "info"))).2.mirror = some "info" ∧
    (Run (stub [⟨404, none⟩]) (stubWorld (some "info"))).2.removals = 0 ∧
    (Run (stub [⟨404, none⟩]) (stubWorld (some "info"))).2.unpacks = 0 :=
  run_leaves_mirror (stub [⟨404, none⟩]) (stubWorld (some "info")) (by
    rw [stub_not_found]
    decide)

/-- C3: when the transport answers every request with 302 and a non-empty
`Location`, `_Download` returns `B_IO_ERROR` after exactly 4 requests: the
original URL, then the `Location` of the 1st, 2nd and 3rd response.  The
record ends there, so the `Location` of the 4th response is not requested. -/
theorem download_redirect_bound (E : Externals Mirror TmpFile Message Stream)
    (url : BUrl) (w : World Mirror TmpFile)
    (h : ∀ requests : List Request, 1 ≤ requests.length →
      (E.transport requests).statusCode = 302 ∧
        ∃ L, (E.transport requests).location = some L ∧ L ≠ "") :
    (_Download E url 0 0 w).1 = B_IO_ERROR ∧
    ∃ q1 q2 q3 q4 : Request,
      (_Download E url 0 0 w).2.requests = w.requests ++ [q1, q2, q3, q4] ∧
      q1.url = url ∧
      (E.transport (w.requests ++ [q1])).location = some q2.url.urlString ∧
      (E.transport (w.requests ++ [q1, q2])).location = some q3.url.urlString ∧
      (E.transport (w.requests ++ [q1, q2, q3])).location = some q4.url.urlString := by
  have hres : ∀ (u : BUrl) (v : World Mirror TmpFile),
      (resultOf E u v).statusCode = 302 ∧
        ∃ L, (resultOf E u v).location = some L ∧ L ≠ "" :=
    fun u v => h _ (by simp)
  obtain ⟨s1, L1, l1, n1⟩ := hres url w
  obtain ⟨s2, L2, l2, n2⟩ := hres ⟨L1⟩ (afterRequest E url w)
  obtain ⟨s3, L3, l3, n3⟩ := hres ⟨L2⟩ (afterRequest E ⟨L1⟩ (afterRequest E url w))
  obtain ⟨s4, L4, l4, n4⟩ :=
    hres ⟨L3⟩ (afterRequest E ⟨L2⟩ (afterRequest E ⟨L1⟩ (afterRequest E url w)))
  rw [download_redirect E url 0 0 w (by decide) (by decide) s1 L1 l1 n1,
    download_redirect E ⟨L1⟩ 1 0 _ (by decide) (by decide) s2 L2 l2 n2,
    download_redirect E ⟨L2⟩ 2 0 _ (by decide) (by decide) s3 L3 l3 n3,
    download_redirect E ⟨L3⟩ 3 0 _ (by decide) (by decide) s4 L4 l4 n4,
    download_exceeded E ⟨L4⟩ 4 0 _ (Or.inl (by decide))]
  refine ⟨rfl, buildRequest E w.mirror url, buildRequest E w.mirror ⟨L1⟩,
    buildRequest E w.mirror ⟨L2⟩, buildRequest E w.mirror ⟨L3⟩, ?_, rfl, ?_, ?_, ?_⟩
  · simp [afterRequest]
  · simpa [resultOf] using l1
  · simpa [resultOf, afterRequest] using l2
  · simpa [resultOf, afterRequest] using l3

theorem download_redirect_bound_witness :
    (_Download
      { stub [] with transport := fun _ => ⟨302, some "http://b/"⟩ }
      ⟨"http://a/"⟩ 0 0 (stubWorld none)).1 = B_IO_ERROR :=
  (download_redirect_bound { stub [] with transport := fun _ => ⟨302, some "http://b/"⟩ }
    ⟨"http://a/"⟩ (stubWorld none)
    (fun _ _ => ⟨rfl, "http://b/", rfl, by decide⟩)).1

/-- C4 (the code at the failing input): when the server answers the
request with 304, `Run` returns `APP_ERR_NOT_MODIFIED`, which is not `B_OK`:
the file-local status code reaches the caller of `Run`. -/
theorem run_not_modified_status :
    (Run (stub [⟨304, none⟩]) (stubWorld (some "info"))).1 = APP_ERR_NOT_MODIFIED ∧
      APP_ERR_NOT_MODIFIED ≠ B_OK := by
  have hd : _Download_path (stub [⟨304, none⟩]) (stubWorld (some "info"))
      = (APP_ERR_NOT_MODIFIED, afterRequest (stub [⟨304, none⟩])
          ⟨"https://depot.haiku-os.org/__pkgicon/all.tar.gz"⟩ (stubWorld (some "info"))) := by
    unfold _Download_path
    have hu : (stub [⟨304, none⟩]).CreateFullUrl "/__pkgicon/all.tar.gz"
        = "https://depot.haiku-os.org/__pkgicon/all.tar.gz" := by decide
    rw [hu]
    apply download_not_modified _ _ 0 0 _ (Nat.zero_le _) (Nat.zero_le _)
    simp [resultOf, stub, stubWorld]
  refine ⟨?_, by decide⟩
  unfold Run
  rw [hd]
  simp

/-- C5: for every attempt within the bounds (`redirects ≤ 3`,
`failures ≤ 2`) the status code `s` of the response is classified as in the
table: 200 ends the fetch with `B_OK`; 304 ends it with
`APP_ERR_NOT_MODIFIED`; 302 with a missing or empty `Location` ends it with
`B_IO_ERROR`; 0 or 500..599 retries the same URL with one more failure;
every other status ends it with `B_IO_ERROR`.  Where the fetch ends, the
world is the one right after this request: the record is the old record
plus this one request to the URL, so no further request is issued. -/
theorem download_classification (E : Externals Mirror TmpFile Message Stream) (url : BUrl)
    (r f : Nat) (w : World Mirror TmpFile) (hr : r ≤ MAX_REDIRECTS) (hf : f ≤ MAX_FAILURES) :
    ((resultOf E url w).statusCode = 200 →
      _Download E url r f w = (B_OK, afterRequest E url w)) ∧
    ((resultOf E url w).statusCode = 304 →
      _Download E url r f w = (APP_ERR_NOT_MODIFIED, afterRequest E url w)) ∧
    ((resultOf E url w).statusCode = 302 →
      ((resultOf E url w).location = none ∨ (resultOf E url w).location = some "") →
      _Download E url r f w = (B_IO_ERROR, afterRequest E url w)) ∧
    (((resultOf E url w).statusCode = 0 ∨
        (500 ≤ (resultOf E url w).statusCode ∧ (resultOf E url w).statusCode ≤ 599)) →
      _Download E url r f w = _Download E url r (f + 1) (afterRequest E url w)) ∧
    ((resultOf E url w).statusCode ≠ 200 → (resultOf E url w).statusCode ≠ 304 →
      (resultOf E url w).statusCode ≠ 302 → (resultOf E url w).statusCode ≠ 0 →
      ¬ (500 ≤ (resultOf E url w).statusCode ∧ (resultOf E url w).statusCode ≤ 599) →
      _Download E url r f w = (B_IO_ERROR, afterRequest E url w)) ∧
    (afterRequest E url w).requests = w.requests ++ [buildRequest E w.mirror url] ∧
    (buildRequest E w.mirror url).url = url :=
  ⟨download_ok E url r f w hr hf, download_not_modified E url r f w hr hf,
    download_redirect_fail E url r f w hr hf, download_retry E url r f w hr hf,
    fun n1 n2 n3 n4 n5 => download_other E url r f w hr hf n1 n2 n3
      (fun t => t.elim n4 n5), rfl, rfl⟩

theorem download_classification_witness :
    _Download (stub [⟨404, none⟩]) ⟨"http://a/"⟩ 3 2 (stubWorld none)
      = (B_IO_ERROR, afterRequest (stub [⟨404, none⟩]) ⟨"http://a/"⟩ (stubWorld none)) :=
  (download_classification (stub [⟨404, none⟩]) ⟨"http://a/"⟩ 3 2 (stubWorld none)
    (by decide) (by decide)).2.2.2.2.1
    (by simp [resultOf, stub, stubWorld]) (by simp [resultOf, stub, stubWorld])
    (by simp [resultOf, stub, stubWorld]) (by simp [resultOf, stub, stubWorld])
    (by simp [resultOf, stub, stubWorld])

theorem stub_retry_once :
    _Download_path (stub [⟨503, none⟩]) (stubWorld none)
      = (B_OK, afterRequest (stub [⟨503, none⟩])
          ⟨"https://depot.haiku-os.org/__pkgicon/all.tar.gz"⟩
          (afterRequest (stub [⟨503, none⟩])
            ⟨"https://depot.haiku-os.org/__pkgicon/all.tar.gz"⟩ (stubWorld none))) := by
  unfold _Download_path
  have hu : (stub [⟨503, none⟩]).CreateFullUrl "/__pkgicon/all.tar.gz"
      = "https://depot.haiku-os.org/__pkgicon/all.tar.gz" := by decide
  rw [hu, download_retry _ _ 0 0 _ (Nat.zero_le _) (Nat.zero_le _)
    (by simp [resultOf, stub, stubWorld, isTransient])]
  apply download_ok _ _ 0 1 _ (Nat.zero_le _) (by decide)
  simp [resultOf, stub, stubWorld, afterRequest]

/-- C6, counterexample: with one 503 followed by 200 the header value is
looked up twice during one fetch, not once. -/
theorem header_built_once_counterexample :
    ¬ ((_Download_path (stub [⟨503, none⟩]) (stubWorld none)).2.lookups
        = (stubWorld none).lookups + 1) := by
  rw [stub_retry_once]
  simp [afterRequest, stubWorld]

/-- C6, amended: during one call of `_Download` the header value is looked
up once for each request that is issued (the number of lookups grows by the
number of requests, so every retry and every followed redirect repeats the
lookup), and every one of these requests carries the same `If-Modified-Since`
value, the one built from the mirror as it was when the call started. -/
theorem header_built_per_request (E : Externals Mirror TmpFile Message Stream) (url : BUrl)
    (r f : Nat) (w : World Mirror TmpFile) :
    ∃ issued : List Request,
      (_Download E url r f w).2.requests = w.requests ++ issued ∧
      (_Download E url r f w).2.lookups = w.lookups + issued.length ∧
      ∀ q ∈ issued, q.ifModifiedSince = (buildRequest E w.mirror url).ifModifiedSince := by
  obtain ⟨l, h1, _, h3, h4⟩ := (download_summary E _ url r f w (le_refl _)).requests
  exact ⟨l, h1, h3, h4⟩

/-- C10: for every behaviour of the outside services, `_Download` (a total
function: it returns for every input) issues at most `budget r f` requests
from the counters `r`, `f`, and from the start (`_Download_path`) at most
`(3 + 1) * (2 + 1) = 12`.  The recursion is well founded on the counters:
`budget r f` is 0 exactly outside the bounds, where the call returns at once,
and inside the bounds both recursive calls have a smaller budget. -/
theorem download_request_bound (E : Externals Mirror TmpFile Message Stream) (url : BUrl)
    (r f : Nat) (w : World Mirror TmpFile) :
    (∃ issued : List Request,
      (_Download E url r f w).2.requests = w.requests ++ issued ∧
      issued.length ≤ budget r f) ∧
    (∃ issued : List Request,
      (_Download_path E w).2.requests = w.requests ++ issued ∧
      issued.length ≤ (MAX_REDIRECTS + 1) * (MAX_FAILURES + 1) ∧ issued.length ≤ 12) ∧
    (budget r f = 0 ↔ (r > MAX_REDIRECTS ∨ f > MAX_FAILURES)) ∧
    (budget r f = 0 ∨
      (budget ((r + 1) % 2 ^ 32) 0 < budget r f ∧ budget r ((f + 1) % 2 ^ 32) < budget r f)) := by
  refine ⟨?_, ?_, ?_, ?_⟩
  · obtain ⟨l, h1, h2, _, _⟩ := (download_summary E _ url r f w (le_refl _)).requests
    exact ⟨l, h1, h2⟩
  · obtain ⟨l, h1, h2, _, _⟩ := (download_summary E _
      ⟨E.CreateFullUrl "/__pkgicon/all.tar.gz"⟩ 0 0 w (le_refl _)).requests
    have hb : budget 0 0 = 12 := by decide
    rw [hb] at h2
    exact ⟨l, h1, h2, h2⟩
  · simp only [budget, MAX_REDIRECTS, MAX_FAILURES]
    split_ifs <;> omega
  · simp only [budget, MAX_REDIRECTS, MAX_FAILURES]
    split_ifs <;> omega

theorem afterRequest_length (E : Externals Mirror TmpFile Message Stream) (url : BUrl)
    (w : World Mirror TmpFile) :
    (afterRequest E url w).requests.length = w.requests.length + 1 := by
  simp [afterRequest]

theorem afterRequest_urls (E : Externals Mirror TmpFile Message Stream) (url : BUrl)
    (w : World Mirror TmpFile) :
    (afterRequest E url w).requests.map Request.url = w.requests.map Request.url ++ [url] := by
  simp [afterRequest, buildRequest]

theorem answers_result (E : Externals Mirror TmpFile Message Stream) (script : List Response)
    (h : answers E script) (url : BUrl) (w : World Mirror TmpFile) (i : Nat) (r : Response)
    (hi : w.requests.length = i) (hr : script.get? i = some r) :
    (resultOf E url w).statusCode = r.statusCode ∧
      (r.statusCode = 302 → (resultOf E url w).location = r.location) :=
  h _ i r (by simp [hi]) hr

/-- C7: the two counters are independent.  Within the bounds, a 302 with a
non-empty `Location` `L` continues as `_Download L (r + 1) 0` and a
transient status (0 or 5xx) continues as `_Download u r (f + 1)`, both in
the world right after the request.  Hence 302 to `B` then 200 gives `B_OK`
after exactly two requests (`u`, `B`), and 503, 503, 302 to `B`, 503, 503,
200 gives `B_OK` after exactly six requests (`u`, `u`, `u`, `B`, `B`, `B`). -/
theorem counters_independent (E : Externals Mirror TmpFile Message Stream) (u : BUrl)
    (r f : Nat) (w : World Mirror TmpFile) (B : String)
    (hr : r ≤ MAX_REDIRECTS) (hf : f ≤ MAX_FAILURES) (hB : B ≠ "") :
    (∀ L : String, L ≠ "" → (resultOf E u w).statusCode = 302 →
      (resultOf E u w).location = some L →
      _Download E u r f w = _Download E ⟨L⟩ (r + 1) 0 (afterRequest E u w)) ∧
    (isTransient (resultOf E u w).statusCode →
      _Download E u r f w = _Download E u r (f + 1) (afterRequest E u w)) ∧
    (w.requests = [] → answers E [⟨302, some B⟩, ⟨200, none⟩] →
      (_Download E u 0 0 w).1 = B_OK ∧
      (_Download E u 0 0 w).2.requests.map Request.url = [u, ⟨B⟩]) ∧
    (w.requests = [] →
      answers E [⟨503, none⟩, ⟨503, none⟩, ⟨302, some B⟩, ⟨503, none⟩, ⟨503, none⟩,
        ⟨200, none⟩] →
      (_Download E u 0 0 w).1 = B_OK ∧
      (_Download E u 0 0 w).2.requests.map Request.url = [u, u, u, ⟨B⟩, ⟨B⟩, ⟨B⟩]) := by
  refine ⟨?_, ?_, ?_, ?_⟩
  · intro L hL hs hl
    exact download_redirect E u r f w hr hf hs L hl hL
  · exact download_retry E u r f w hr hf
  · intro hw ha
    have a0 := answers_result E _ ha u w 0 _ (by simp [hw]) rfl
    have a1 := answers_result E _ ha ⟨B⟩ (afterRequest E u w) 1 _
      (by simp [afterRequest_length, hw]) rfl
    rw [download_redirect E u 0 0 w (by decide) (by decide) a0.1 B (a0.2 rfl) hB,
      download_ok E ⟨B⟩ 1 0 _ (by decide) (by decide) a1.1]
    refine ⟨rfl, ?_⟩
    simp [afterRequest_urls, hw]
  · intro hw ha
    have a0 := answers_result E _ ha u w 0 _ (by simp [hw]) rfl
    have a1 := answers_result E _ ha u (afterRequest E u w) 1 _
      (by simp [afterRequest_length, hw]) rfl
    have a2 := answers_result E _ ha u (afterRequest E u (afterRequest E u w)) 2 _
      (by simp [afterRequest_length, hw]) rfl
    have a3 := answers_result E _ ha ⟨B⟩
      (afterRequest E u (afterRequest E u (afterRequest E u w))) 3 _
      (by simp [afterRequest_length, hw]) rfl
    have a4 := answers_result E _ ha ⟨B⟩
      (afterRequest E ⟨B⟩ (afterRequest E u (afterRequest E u (afterRequest E u w)))) 4 _
      (by simp [afterRequest_length, hw]) rfl
    have a5 := answers_result E _ ha ⟨B⟩
      (afterRequest E ⟨B⟩ (afterRequest E ⟨B⟩
        (afterRequest E u (afterRequest E u (afterRequest E u w))))) 5 _
      (by simp [afterRequest_length, hw]) rfl
    have t : isTransient 503 := by decide
    rw [download_retry E u 0 0 w (by decide) (by decide) (by rw [a0.1]; exact t),
      download_retry E u 0 1 _ (by decide) (by decide) (by rw [a1.1]; exact t),
      download_redirect E u 0 2 _ (by decide) (by decide) a2.1 B (a2.2 rfl) hB,
      download_retry E ⟨B⟩ 1 0 _ (by decide) (by decide) (by rw [a3.1]; exact t),
      download_retry E ⟨B⟩ 1 1 _ (by decide) (by decide) (by rw [a4.1]; exact t),
      download_ok E ⟨B⟩ 1 2 _ (by decide) (by decide) a5.1]
    refine ⟨rfl, ?_⟩
    simp [afterRequest_urls, hw]

theorem stub_answers (script : List Response) : answers (stub script) script := by
  intro requests i r hlen hget
  have : (stub script).transport requests = r := by
    rw [List.get?_eq_getElem?] at hget
    simp [stub, hlen, List.getD, hget]
  rw [this]
  exact ⟨rfl, fun _ => rfl⟩

theorem counters_independent_witness :
    (_Download (stub [⟨302, some "http://b/"⟩, ⟨200, none⟩]) ⟨"http://a/"⟩ 0 0
      (stubWorld none)).1 = B_OK ∧
    (_Download (stub [⟨302, some "http://b/"⟩, ⟨200, none⟩]) ⟨"http://a/"⟩ 0 0
      (stubWorld none)).2.requests.map Request.url = [⟨"http://a/"⟩, ⟨"http://b/"⟩] :=
  (counters_independent (stub [⟨302, some "http://b/"⟩, ⟨200, none⟩]) ⟨"http://a/"⟩ 0 0
    (stubWorld none) "http://b/" (by decide) (by decide) (by decide)).2.2.1 rfl
    (stub_answers _)

theorem download_outcome_indep (E E' : Externals Mirror TmpFile Message Stream)
    (hT : ∀ a b : List Request, a.map Request.url = b.map Request.url →
      E.transport a = E'.transport b) :
    ∀ (n : Nat) (url : BUrl) (r f : Nat) (w w' : World Mirror TmpFile), budget r f ≤ n →
      w.requests.map Request.url = w'.requests.map Request.url →
      (_Download E url r f w).1 = (_Download E' url r f w').1 ∧
      (_Download E url r f w).2.requests.map Request.url
        = (_Download E' url r f w').2.requests.map Request.url := by
  intro n
  induction n with
  | zero =>
    intro url r f w w' hb hw
    have hex : MAX_REDIRECTS < r ∨ MAX_FAILURES < f := by
      simp only [budget, MAX_REDIRECTS, MAX_FAILURES] at *
      split_ifs at hb with hc
      · omega
      · omega
    rw [download_exceeded E url r f w hex, download_exceeded E' url r f w' hex]
    exact ⟨rfl, hw⟩
  | succ n ih =>
    intro url r f w w' hb hw
    by_cases hin : r ≤ MAX_REDIRECTS ∧ f ≤ MAX_FAILURES
    · obtain ⟨hr, hf⟩ := hin
      have b1 : budget (r + 1) 0 + 1 ≤ budget r f := by
        simp only [budget, MAX_REDIRECTS, MAX_FAILURES] at hr hf ⊢
        split_ifs <;> omega
      have b2 : budget r (f + 1) + 1 ≤ budget r f := by
        simp only [budget, MAX_REDIRECTS, MAX_FAILURES] at hr hf ⊢
        split_ifs <;> omega
      have hres : resultOf E url w = resultOf E' url w' := by
        apply hT
        simp [hw, buildRequest]
      have hnext : ∀ x : BUrl, (afterRequest E x w).requests.map Request.url
          = (afterRequest E' x w').requests.map Request.url := by
        intro x
        rw [afterRequest_urls, afterRequest_urls, hw]
      by_cases h1 : (resultOf E url w).statusCode = 200
      · rw [download_ok E url r f w hr hf h1, download_ok E' url r f w' hr hf (hres ▸ h1)]
        exact ⟨rfl, hnext url⟩
      by_cases h2 : (resultOf E url w).statusCode = 304
      · rw [download_not_modified E url r f w hr hf h2,
          download_not_modified E' url r f w' hr hf (hres ▸ h2)]
        exact ⟨rfl, hnext url⟩
      by_cases h3 : (resultOf E url w).statusCode = 302
      · cases hl : (resultOf E url w).location with
        | none =>
          rw [download_redirect_fail E url r f w hr hf h3 (Or.inl hl),
            download_redirect_fail E' url r f w' hr hf (hres ▸ h3) (Or.inl (hres ▸ hl))]
          exact ⟨rfl, hnext url⟩
        | some L =>
          by_cases hne : L = ""
          · subst hne
            rw [download_redirect_fail E url r f w hr hf h3 (Or.inr hl),
              download_redirect_fail E' url r f w' hr hf (hres ▸ h3) (Or.inr (hres ▸ hl))]
            exact ⟨rfl, hnext url⟩
          · rw [download_redirect E url r f w hr hf h3 L hl hne,
              download_redirect E' url r f w' hr hf (hres ▸ h3) L (hres ▸ hl) hne]
            exact ih _ _ _ _ _ (by omega) (hnext url)
      by_cases h4 : isTransient (resultOf E url w).statusCode
      · rw [download_retry E url r f w hr hf h4, download_retry E' url r f w' hr hf (hres ▸ h4)]
        exact ih _ _ _ _ _ (by omega) (hnext url)
      · rw [download_other E url r f w hr hf h1 h2 h3 h4,
          download_other E' url r f w' hr hf (hres ▸ h1) (hres ▸ h2) (hres ▸ h3) (hres ▸ h4)]
        exact ⟨rfl, hnext url⟩
    · have hex : MAX_REDIRECTS < r ∨ MAX_FAILURES < f := by
        by_contra hc
        exact hin ⟨by omega, by omega⟩
      rw [download_exceeded E url r f w hex, download_exceeded E' url r f w' hex]
      exact ⟨rfl, hw⟩

theorem lookup_not_found (E : Externals Mirror TmpFile Message Stream) (m : Mirror)
    (h : E.stat m "hicn/info.json" = (-1, ENOENT)) :
    _IfModifiedSinceHeaderValue E m = (B_FILE_NOT_FOUND, "") := by
  simp [_IfModifiedSinceHeaderValue, _IfModifiedSinceHeaderValue_path, h]

/-- C9: when `stat` finds no `hicn/info.json` (`ENOENT`), the lookup returns
`B_FILE_NOT_FOUND`, which differs from `B_ERROR` and from `B_OK`, with an
empty value, and the request carries no `If-Modified-Since`.  In general a
request carries `If-Modified-Since: v` exactly when the lookup returned
`B_OK` with the non-empty value `v`, and every request of a fetch is built
this way.  The lookup never decides the outcome: two runs whose transports
answer alike (the answer depends on the URLs requested so far only) return
the same status and request the same URLs, whatever the services behind the
lookup and the mirrors are. -/
theorem header_lookup (E : Externals Mirror TmpFile Message Stream) (url : BUrl)
    (r f : Nat) (w : World Mirror TmpFile) :
    (E.stat w.mirror "hicn/info.json" = (-1, ENOENT) →
      _IfModifiedSinceHeaderValue E w.mirror = (B_FILE_NOT_FOUND, "") ∧
      (buildRequest E w.mirror url).ifModifiedSince = none) ∧
    B_FILE_NOT_FOUND ≠ B_ERROR ∧ B_FILE_NOT_FOUND ≠ B_OK ∧
    (∀ v : String, (buildRequest E w.mirror url).ifModifiedSince = some v ↔
      (_IfModifiedSinceHeaderValue E w.mirror = (B_OK, v) ∧ v ≠ "")) ∧
    (∃ issued : List Request,
      (_Download E url r f w).2.requests = w.requests ++ issued ∧
      ∀ q ∈ issued, q.ifModifiedSince = (buildRequest E w.mirror url).ifModifiedSince) ∧
    (∀ (E' : Externals Mirror TmpFile Message Stream) (w' : World Mirror TmpFile),
      (∀ a b : List Request, a.map Request.url = b.map Request.url →
        E.transport a = E'.transport b) →
      w.requests.map Request.url = w'.requests.map Request.url →
      (_Download E url r f w).1 = (_Download E' url r f w').1 ∧
      (_Download E url r f w).2.requests.map Request.url
        = (_Download E' url r f w').2.requests.map Request.url) := by
  refine ⟨?_, by decide, by decide, ?_, ?_, ?_⟩
  · intro h
    have hl := lookup_not_found E w.mirror h
    refine ⟨hl, ?_⟩
    simp [buildRequest, hl]
  · intro v
    simp only [buildRequest]
    constructor
    · intro h
      split_ifs at h with hc
      have hv : (_IfModifiedSinceHeaderValue E w.mirror).2 = v := Option.some.inj h
      refine ⟨Prod.ext hc.1 hv, ?_⟩
      intro he
      rw [← hv] at he
      have := hc.2
      rw [he] at this
      exact absurd this (by decide)
    · rintro ⟨h, hv⟩
      have hlen : v.length > 0 := by
        rcases Nat.eq_zero_or_pos v.length with h0 | h0
        · exact absurd (string_eq_empty_of_length v h0) hv
        · exact h0
      rw [h]
      simp [hlen]
  · obtain ⟨l, h1, _, _, h4⟩ := (download_summary E _ url r f w (le_refl _)).requests
    exact ⟨l, h1, h4⟩
  · intro E' w' hT hw
    exact download_outcome_indep E E' hT _ url r f w w' (le_refl _) hw

theorem header_lookup_witness :
    (_IfModifiedSinceHeaderValue (stub [⟨503, none⟩]) (stubWorld none).mirror
      = (B_FILE_NOT_FOUND, "")) ∧
    (_Download (stub [⟨503, none⟩]) ⟨"http://a/"⟩ 0 0 (stubWorld none)).1
      = (_Download (stub [⟨503, none⟩]) ⟨"http://a/"⟩ 0 0 (stubWorld (some "info"))).1 :=
  ⟨((header_lookup (stub [⟨503, none⟩]) ⟨"http://a/"⟩ 0 0 (stubWorld none)).1 rfl).1,
    ((header_lookup (stub [⟨503, none⟩]) ⟨"http://a/"⟩ 0 0 (stubWorld none)).2.2.2.2.2
      (stub [⟨503, none⟩]) (stubWorld (some "info"))
      (by
        intro a b hab
        have hlen : a.length = b.length := by
          have := congrArg List.length hab
          simpa using this
        simp [stub, hlen])
      rfl).1⟩

end Fetch

/-! ## `gmtime` and the civil calendar -/

theorem cycles_facts (z a c q y rd : Nat)
    (ha : a = z / 146097)
    (hc : c = min (z % 146097 / 36524) 3)
    (hq : q = min ((z % 146097 - c * 36524) / 1461) 24)
    (hy : y = min ((z % 146097 - c * 36524 - q * 1461) / 365) 3)
    (hrd : rd = z % 146097 - c * 36524 - q * 1461 - y * 365) :
    c ≤ 3 ∧ q ≤ 24 ∧ y ≤ 3 ∧ z = 146097 * a + 36524 * c + 1461 * q + 365 * y + rd ∧
    rd ≤ 365 ∧ (rd = 365 → y = 3 ∧ (q < 24 ∨ c = 3)) := by
  omega

theorem div4 (a c q y e : Nat) (hy : y ≤ 3) (he : e ≤ 1)
    (h : 1970 ≤ 400 * a + 100 * c + 4 * q + y + e) :
    (400 * a + 100 * c + 4 * q + y + e - 1969) / 4 + 493
      = 100 * a + 25 * c + q + (if y + e = 0 then 0 else 1) := by
  split_ifs <;> omega

theorem div100 (a c q y e : Nat) (hy : y ≤ 3) (he : e ≤ 1) (hq : q ≤ 24)
    (h : 1970 ≤ 400 * a + 100 * c + 4 * q + y + e) :
    (400 * a + 100 * c + 4 * q + y + e - 1901) / 100 + 20
      = 4 * a + c + (if 4 * q + y + e = 0 then 0 else 1) := by
  split_ifs <;> omega

theorem div400 (a c q y e : Nat) (hy : y ≤ 3) (he : e ≤ 1) (hq : q ≤ 24) (hc : c ≤ 3)
    (h : 1970 ≤ 400 * a + 100 * c + 4 * q + y + e) :
    (400 * a + 100 * c + 4 * q + y + e - 1601) / 400 + 5
      = a + (if 100 * c + 4 * q + y + e = 0 then 0 else 1) := by
  split_ifs <;> omega

theorem year_ge (z a c q y rd e : Nat) (hz : 719468 ≤ z) (hc : c ≤ 3) (hq : q ≤ 24) (hy : y ≤ 3)
    (hzz : z = 146097 * a + 36524 * c + 1461 * q + 365 * y + rd)
    (hrd : rd ≤ 365) (he : e = 0 → rd < 306) :
    1970 ≤ 400 * a + 100 * c + 4 * q + y + e := by
  omega

theorem leap_iff (a c q y e : Nat) (hy : y ≤ 3) (he : e ≤ 1) (hq : q ≤ 24) (hc : c ≤ 3) :
    ((400 * a + 100 * c + 4 * q + y + e) % 4 = 0 ∧
      ((400 * a + 100 * c + 4 * q + y + e) % 100 ≠ 0 ∨
        (400 * a + 100 * c + 4 * q + y + e) % 400 = 0)) ↔
    ((y + e = 0 ∨ y + e = 4) ∧
      ((4 * q + y + e ≠ 0 ∧ 4 * q + y + e ≠ 100) ∨
        (100 * c + 4 * q + y + e = 0 ∨ 100 * c + 4 * q + y + e = 400))) := by
  omega

theorem days_to_year (z a c q y rd e year : Nat) (hz : 719468 ≤ z)
    (c3 : c ≤ 3) (q24 : q ≤ 24) (y3 : y ≤ 3) (he1 : e ≤ 1)
    (hzz : z = 146097 * a + 36524 * c + 1461 * q + 365 * y + rd)
    (hrd365 : rd ≤ 365) (hee : e = 0 → rd < 306)
    (hfeb : rd = 365 → y = 3 ∧ (q < 24 ∨ c = 3))
    (hye : year = 400 * a + 100 * c + 4 * q + y + e) :
    1970 ≤ year ∧
    (e = 0 → (year - 1970) * 365 + (year - 1969) / 4 + (year - 1601) / 400 + rd
        + (59 + leapDay year)
      = z - 719468 + (year - 1901) / 100) ∧
    (e = 1 → (year - 1970) * 365 + (year - 1969) / 4 + (year - 1601) / 400 + rd
      = z - 719468 + (year - 1901) / 100 + 306) ∧
    (e = 1 → rd = 365 → leapDay year = 1) := by
  have hge := year_ge z a c q y rd e hz c3 q24 y3 hzz hrd365 hee
  have d4 := div4 a c q y e y3 he1 hge
  have d100 := div100 a c q y e y3 he1 q24 hge
  have d400 := div400 a c q y e y3 he1 q24 c3 hge
  have hl := leap_iff a c q y e y3 he1 q24 c3
  rw [← hye] at d4 d100 d400 hge hl
  generalize (year - 1969) / 4 = D4 at d4 ⊢
  generalize (year - 1901) / 100 = D100 at d100 ⊢
  generalize (year - 1601) / 400 = D400 at d400 ⊢
  obtain ⟨leap, hleap⟩ : ∃ leap, leap = leapDay year := ⟨_, rfl⟩
  rw [← hleap]
  simp only [leapDay, hl] at hleap
  clear hl
  refine ⟨hge, ?_, ?_, ?_⟩
  · intro h0
    subst h0
    simp only [Nat.add_zero] at *
    split_ifs at d4 d100 d400 hleap <;> first | contradiction | omega
  · intro h1
    subst h1
    clear hleap
    split_ifs at d4 d100 d400 <;> first | contradiction | omega
  · intro h1 h365
    subst h1
    obtain ⟨hy3, hqc⟩ := hfeb h365
    clear d4 d100 d400
    split_ifs at hleap <;> first | contradiction | omega

theorem monthWalk_lt (len : Nat) (rest : List Nat) (m d : Nat) (h : d < len) :
    monthWalk (len :: rest) m d = (m, d) := by
  rw [monthWalk, if_neg (by omega)]

theorem monthWalk_ge (len : Nat) (rest : List Nat) (m d : Nat) (h : len ≤ d) :
    monthWalk (len :: rest) m d = monthWalk rest (m + 1) (d - len) := by
  rw [monthWalk, if_pos h]

theorem monthWalk_cases (rd : Nat) (h : rd ≤ 365) :
    ∃ k rem, monthWalk days_in_month 0 rd = (k, rem) ∧
    ((k = 0 ∧ rem = rd ∧ rd < 31) ∨ (k = 1 ∧ rem + 31 = rd ∧ rem < 30) ∨
    (k = 2 ∧ rem + 61 = rd ∧ rem < 31) ∨ (k = 3 ∧ rem + 92 = rd ∧ rem < 30) ∨
    (k = 4 ∧ rem + 122 = rd ∧ rem < 31) ∨ (k = 5 ∧ rem + 153 = rd ∧ rem < 31) ∨
    (k = 6 ∧ rem + 184 = rd ∧ rem < 30) ∨ (k = 7 ∧ rem + 214 = rd ∧ rem < 31) ∨
    (k = 8 ∧ rem + 245 = rd ∧ rem < 30) ∨ (k = 9 ∧ rem + 275 = rd ∧ rem < 31) ∨
    (k = 10 ∧ rem + 306 = rd ∧ rem < 31) ∨ (k = 11 ∧ rem + 337 = rd ∧ rem < 29)) := by
  unfold days_in_month
  rcases Nat.lt_or_ge (rd) 31 with h0 | h0
  · refine ⟨0, rd, monthWalk_lt _ _ _ _ h0, ?_⟩
    left
    exact ⟨rfl, by omega, by omega⟩
  rw [monthWalk_ge _ _ _ _ h0]
  rcases Nat.lt_or_ge (rd - 31) 30 with h1 | h1
  · refine ⟨1, rd - 31, monthWalk_lt _ _ _ _ h1, ?_⟩
    right; left
    exact ⟨rfl, by omega, by omega⟩
  rw [monthWalk_ge _ _ _ _ h1]
  rcases Nat.lt_or_ge (rd - 31 - 30) 31 with h2 | h2
  · refine ⟨2, rd - 31 - 30, monthWalk_lt _ _ _ _ h2, ?_⟩
    right; right; left
    exact ⟨rfl, by omega, by omega⟩
  rw [monthWalk_ge _ _ _ _ h2]
  rcases Nat.lt_or_ge (rd - 31 - 30 - 31) 30 with h3 | h3
  · refine ⟨3, rd - 31 - 30 - 31, monthWalk_lt _ _ _ _ h3, ?_⟩
    right; right; right; left
    exact ⟨rfl, by omega, by omega⟩
  rw [monthWalk_ge _ _ _ _ h3]
  rcases Nat.lt_or_ge (rd - 31 - 30 - 31 - 30) 31 with h4 | h4
  · refine ⟨4, rd - 31 - 30 - 31 - 30, monthWalk_lt _ _ _ _ h4, ?_⟩
    right; right; right; right; left
    exact ⟨rfl, by omega, by omega⟩
  rw [monthWalk_ge _ _ _ _ h4]
  rcases Nat.lt_or_ge (rd - 31 - 30 - 31 - 30 - 31) 31 with h5 | h5
  · refine ⟨5, rd - 31 - 30 - 31 - 30 - 31, monthWalk_lt _ _ _ _ h5, ?_⟩
    right; right; right; right; right; left
    exact ⟨rfl, by omega, by omega⟩
  rw [monthWalk_ge _ _ _ _ h5]
  rcases Nat.lt_or_ge (rd - 31 - 30 - 31 - 30 - 31 - 31) 30 with h6 | h6
  · refine ⟨6, rd - 31 - 30 - 31 - 30 - 31 - 31, monthWalk_lt _ _ _ _ h6, ?_⟩
    right; right; right; right; right; right; left
    exact ⟨rfl, by omega, by omega⟩
  rw [monthWalk_ge _ _ _ _ h6]
  rcases Nat.lt_or_ge (rd - 31 - 30 - 31 - 30 - 31 - 31 - 30) 31 with h7 | h7
  · refine ⟨7, rd - 31 - 30 - 31 - 30 - 31 - 31 - 30, monthWalk_lt _ _ _ _ h7, ?_⟩
    right; right; right; right; right; right; right; left
    exact ⟨rfl, by omega, by omega⟩
  rw [monthWalk_ge _ _ _ _ h7]
  rcases Nat.lt_or_ge (rd - 31 - 30 - 31 - 30 - 31 - 31 - 30 - 31) 30 with h8 | h8
  · refine ⟨8, rd - 31 - 30 - 31 - 30 - 31 - 31 - 30 - 31, monthWalk_lt _ _ _ _ h8, ?_⟩
    right; right; right; right; right; right; right; right; left
    exact ⟨rfl, by omega, by omega⟩
  rw [monthWalk_ge _ _ _ _ h8]
  rcases Nat.lt_or_ge (rd - 31 - 30 - 31 - 30 - 31 - 31 - 30 - 31 - 30) 31 with h9 | h9
  · refine ⟨9, rd - 31 - 30 - 31 - 30 - 31 - 31 - 30 - 31 - 30, monthWalk_lt _ _ _ _ h9, ?_⟩
    right; right; right; right; right; right; right; right; right; left
    exact ⟨rfl, by omega, by omega⟩
  rw [monthWalk_ge _ _ _ _ h9]
  rcases Nat.lt_or_ge (rd - 31 - 30 - 31 - 30 - 31 - 31 - 30 - 31 - 30 - 31) 31 with h10 | h10
  · refine ⟨10, rd - 31 - 30 - 31 - 30 - 31 - 31 - 30 - 31 - 30 - 31, monthWalk_lt _ _ _ _ h10, ?_⟩
    right; right; right; right; right; right; right; right; right; right; left
    exact ⟨rfl, by omega, by omega⟩
  rw [monthWalk_ge _ _ _ _ h10]
  rcases Nat.lt_or_ge (rd - 31 - 30 - 31 - 30 - 31 - 31 - 30 - 31 - 30 - 31 - 31) 29 with h11 | h11
  · refine ⟨11, rd - 31 - 30 - 31 - 30 - 31 - 31 - 30 - 31 - 30 - 31 - 31, monthWalk_lt _ _ _ _ h11, ?_⟩
    right; right; right; right; right; right; right; right; right; right; right
    exact ⟨rfl, by omega, by omega⟩
  rw [monthWalk_ge _ _ _ _ h11]
  omega

/-- What `gmtime` computes, in terms of the civil calendar. -/
theorem gmtime_civil (t : Nat) :
    1970 ≤ 1900 + (gmtime t).tm_year ∧ (gmtime t).tm_mon < 12 ∧
    1 ≤ (gmtime t).tm_mday ∧
    (gmtime t).tm_mday ≤ monthLength (1900 + (gmtime t).tm_year) (gmtime t).tm_mon ∧
    1900 + (gmtime t).tm_year ≤ 400 * ((t / 86400 + 719468) / 146097) + 400 ∧
    (1900 + (gmtime t).tm_year - 1970) * 365 + (1900 + (gmtime t).tm_year - 1969) / 4
        + (1900 + (gmtime t).tm_year - 1601) / 400
        + yearDay (1900 + (gmtime t).tm_year) (gmtime t).tm_mon (gmtime t).tm_mday
      = t / 86400 + (1900 + (gmtime t).tm_year - 1901) / 100 := by
  have hz : 719468 ≤ t / 86400 + 719468 := Nat.le_add_left _ _
  have hdays : t / 86400 = t / 86400 + 719468 - 719468 := by omega
  simp only [gmtime]
  generalize t / 86400 + 719468 = z at hz hdays ⊢
  rw [hdays]
  generalize hc : min (z % 146097 / 36524) 3 = c
  generalize hq : min ((z % 146097 - c * 36524) / 1461) 24 = q
  generalize hy : min ((z % 146097 - c * 36524 - q * 1461) / 365) 3 = y
  generalize hrd : z % 146097 - c * 36524 - q * 1461 - y * 365 = rd
  generalize ha : z / 146097 = a
  obtain ⟨c3, q24, y3, hzz, hrd365, hfeb⟩ :=
    cycles_facts z a c q y rd ha.symm hc.symm hq.symm hy.symm hrd.symm
  obtain ⟨k, rem, hmw, hk⟩ := monthWalk_cases rd hrd365
  rw [hmw]
  dsimp only
  clear hc hq hy hrd ha hdays
  obtain ⟨e, he1, hee, hek, hye⟩ : ∃ e, e ≤ 1 ∧ (e = 0 → rd < 306) ∧ (e = 1 ↔ k ≥ 10) ∧
      (if k ≥ 10 then y + 4 * q + 100 * c + 400 * a + 1 else y + 4 * q + 100 * c + 400 * a)
        = 400 * a + 100 * c + 4 * q + y + e := by
    by_cases h10 : k ≥ 10
    · exact ⟨1, by omega, by omega, by omega, by rw [if_pos h10]; omega⟩
    · exact ⟨0, by omega, by omega, by omega, by rw [if_neg h10]; omega⟩
  rw [hye]
  obtain ⟨hge, hmain0, hmain1, hleap1⟩ := days_to_year z a c q y rd e _ hz c3 q24 y3 he1 hzz
    hrd365 hee hfeb rfl
  have hyb : 400 * a + 100 * c + 4 * q + y + e ≤ 400 * a + 400 := by omega
  generalize 400 * a + 100 * c + 4 * q + y + e = year at hge hmain0 hmain1 hleap1 hyb ⊢
  have hyy : 1900 + (year - 1900) = year := by omega
  rw [hyy]
  have hL : leapDay year ≤ 1 := by
    unfold leapDay
    split_ifs <;> omega
  clear hye hzz hfeb hee
  generalize (year - 1969) / 4 = D4 at hmain0 hmain1 ⊢
  generalize (year - 1901) / 100 = D100 at hmain0 hmain1 ⊢
  generalize (year - 1601) / 400 = D400 at hmain0 hmain1 ⊢
  generalize (year - 1970) * 365 = N at hmain0 hmain1 ⊢
  simp only [monthLength, yearDay, cumDays, monthDays]
  generalize leapDay year = L at hmain0 hleap1 hL ⊢
  rcases hk with h | h | h | h | h | h | h | h | h | h | h | h <;>
    obtain ⟨h1, h2, h3⟩ := h <;> subst h1 <;> norm_num at hek ⊢ <;>
    first
      | (have hm := hmain0 (by omega); refine ⟨hge, ?_, hyb, ?_⟩ <;> omega)
      | (have hm := hmain1 hek; have hl := hleap1 hek; refine ⟨hge, ?_, hyb, ?_⟩ <;> omega)

/-! ## Reading back what `strftime` wrote -/

theorem digitVal_digitChar (d : Nat) (h : d < 10) : digitVal (digitChar d) = some d := by
  interval_cases d <;> rfl

theorem twoDigits_pad2 (n : Nat) (h : n < 100) (rest : List Char) :
    twoDigits (pad2 n ++ rest) = some (n, rest) := by
  have h1 : n / 10 % 10 < 10 := Nat.mod_lt _ (by decide)
  have h2 : n % 10 < 10 := Nat.mod_lt _ (by decide)
  simp only [pad2, List.cons_append, List.nil_append, twoDigits, digitVal_digitChar _ h1,
    digitVal_digitChar _ h2]
  congr 2
  omega

theorem expect_append (cs rest : List Char) : expect cs (cs ++ rest) = some rest := by
  simp [expect]

theorem name3_wday (w : Nat) (h : w < 7) (rest : List Char) :
    name3 wdayNames 7 (abbrev3 wdayNames w ++ rest) = some (w, rest) := by
  interval_cases w <;> rfl

theorem name3_mon (m : Nat) (h : m < 12) (rest : List Char) :
    name3 monNames 12 (abbrev3 monNames m ++ rest) = some (m, rest) := by
  interval_cases m <;> rfl

theorem takeDigits_digits (ds : List Nat) (hds : ∀ d ∈ ds, d < 10) (c : Char) (rest : List Char)
    (hc : digitVal c = none) :
    takeDigits (ds.map digitChar ++ c :: rest) = (ds, c :: rest) := by
  induction ds with
  | nil => simp [takeDigits, hc]
  | cons d ds ih =>
    have hd : d < 10 := hds d (List.mem_cons_self _ _)
    have ih' := ih (fun x hx => hds x (List.mem_cons_of_mem _ hx))
    simp [takeDigits, digitVal_digitChar d hd, ih']

theorem number_decimal (n : Nat) (h : 1000 ≤ n) (c : Char) (rest : List Char)
    (hc : digitVal c = none) :
    number 4 (decimal n ++ c :: rest) = some (n, c :: rest) := by
  have hlt : ∀ d ∈ (Nat.digits 10 n).reverse, d < 10 := by
    intro d hd
    exact Nat.digits_lt_base (by decide) (List.mem_reverse.mp hd)
  have hlen : 4 ≤ (Nat.digits 10 n).length := by
    by_contra hcon
    have : (Nat.digits 10 n).length ≤ 3 := by omega
    have h1 : n < 10 ^ (Nat.digits 10 n).length := Nat.lt_base_pow_length_digits (by decide)
    have h2 : 10 ^ (Nat.digits 10 n).length ≤ 10 ^ 3 := Nat.pow_le_pow_right (by decide) this
    omega
  unfold number decimal
  rw [takeDigits_digits _ hlt c rest hc]
  simp [hlen, Nat.ofDigits_digits]

theorem decimal_length (n : Nat) (h0 : n ≠ 0) (h : n < 10 ^ 9) : (decimal n).length ≤ 9 := by
  unfold decimal
  rw [List.length_map, List.length_reverse]
  by_contra hcon
  have h1 : 10 ^ 10 ≤ 10 ^ (Nat.digits 10 n).length :=
    Nat.pow_le_pow_right (by decide) (by omega)
  have h2 := Nat.base_pow_length_digits_le 10 n (by decide) h0
  omega

theorem strftimeExpand_format (t : tm) :
    strftimeExpand "%a, %d %b %Y %T %z".toList t
      = abbrev3 wdayNames t.tm_wday ++ (", ".toList ++ (pad2 t.tm_mday ++ (" ".toList ++
        (abbrev3 monNames t.tm_mon ++ (" ".toList ++ (decimal (1900 + t.tm_year) ++
        (" ".toList ++ (pad2 t.tm_hour ++ (":".toList ++ (pad2 t.tm_min ++ (":".toList ++
        (pad2 t.tm_sec ++ (" ".toList ++ ((if t.tm_gmtoff < 0 then "-".toList else "+".toList)
          ++ (pad2 (t.tm_gmtoff.natAbs / 3600) ++ pad2 (t.tm_gmtoff.natAbs / 60 % 60)
          ))))))))))))))) := by
  simp [strftimeExpand, strftimeConv]

theorem gmtime_time (t : Nat) :
    (gmtime t).tm_hour ≤ 23 ∧ (gmtime t).tm_min ≤ 59 ∧ (gmtime t).tm_sec ≤ 59 ∧
    (gmtime t).tm_sec + (gmtime t).tm_min * 60 + (gmtime t).tm_hour * 3600 = t % 86400 ∧
    (gmtime t).tm_wday = (t / 86400 + 4) % 7 ∧ (gmtime t).tm_gmtoff = 0 := by
  dsimp only [gmtime]
  omega

theorem secondsSinceEpoch_gmtime (t : Nat) :
    secondsSinceEpoch (gmtime t).tm_sec (gmtime t).tm_min (gmtime t).tm_hour
      (yearDay (1900 + (gmtime t).tm_year) (gmtime t).tm_mon (gmtime t).tm_mday)
      (1900 + (gmtime t).tm_year - 1900) = t := by
  obtain ⟨h1, _, _, _, _, h6⟩ := gmtime_civil t
  obtain ⟨_, _, _, t4, _, _⟩ := gmtime_time t
  unfold secondsSinceEpoch
  generalize yearDay (1900 + (gmtime t).tm_year) (gmtime t).tm_mon (gmtime t).tm_mday = yd
    at h6 ⊢
  generalize (gmtime t).tm_year = ty at h1 h6 ⊢
  generalize (gmtime t).tm_sec = a at t4 ⊢
  generalize (gmtime t).tm_min = b at t4 ⊢
  generalize (gmtime t).tm_hour = c at t4 ⊢
  omega

theorem year_lt (t : Nat) (ht : t * 1000 < 2 ^ 64) : 1900 + (gmtime t).tm_year < 10 ^ 9 := by
  obtain ⟨_, _, _, _, h5, _⟩ := gmtime_civil t
  have : (t / 86400 + 719468) / 146097 ≤ 1461400 := by
    norm_num at ht
    omega
  omega

theorem toList_space : " ".toList = [Char.ofNat 32] := rfl

theorem digitVal_space : digitVal (Char.ofNat 32) = none := rfl

/-- The text `_TimestampToRfc2822String` produces. -/
theorem timestamp_text (T : Nat) (hT : T < 2 ^ 64) :
    (_TimestampToRfc2822String T).toList
      = abbrev3 wdayNames (gmtime (T / 1000)).tm_wday ++ (", ".toList ++
        (pad2 (gmtime (T / 1000)).tm_mday ++ (" ".toList ++
        (abbrev3 monNames (gmtime (T / 1000)).tm_mon ++ (" ".toList ++
        (decimal (1900 + (gmtime (T / 1000)).tm_year) ++ (" ".toList ++
        (pad2 (gmtime (T / 1000)).tm_hour ++ (":".toList ++
        (pad2 (gmtime (T / 1000)).tm_min ++ (":".toList ++
        (pad2 (gmtime (T / 1000)).tm_sec ++ (" ".toList ++ ("+".toList ++
        (pad2 0 ++ pad2 0))))))))))))))) := by
  have ht : T / 1000 * 1000 < 2 ^ 64 := by
    norm_num at hT ⊢
    omega
  have hy := year_lt (T / 1000) ht
  have hlen := decimal_length (1900 + (gmtime (T / 1000)).tm_year) (by omega) hy
  obtain ⟨_, _, _, _, _, hoff⟩ := gmtime_time (T / 1000)
  have hw : (abbrev3 wdayNames (gmtime (T / 1000)).tm_wday).length ≤ 3 := by
    simp [abbrev3]
  have hm : (abbrev3 monNames (gmtime (T / 1000)).tm_mon).length ≤ 3 := by
    simp [abbrev3]
  have key : strftime 256 "%a, %d %b %Y %T %z" (gmtime (T / 1000))
      = strftimeExpand "%a, %d %b %Y %T %z".toList (gmtime (T / 1000)) := by
    simp only [strftime]
    rw [if_pos]
    rw [strftimeExpand_format]
    simp only [List.length_append, pad2, List.length_cons, List.length_nil]
    have e1 : ", ".toList.length = 2 := rfl
    have e2 : " ".toList.length = 1 := rfl
    have e3 : ":".toList.length = 1 := rfl
    have e4 : "+".toList.length = 1 := rfl
    have e5 : "-".toList.length = 1 := rfl
    rw [e1, e2, e3]
    split_ifs
    · rw [e5]
      omega
    · rw [e4]
      omega
  show strftime 256 "%a, %d %b %Y %T %z" (gmtime (T / 1000)) = _
  rw [key, strftimeExpand_format, hoff]
  rfl

theorem number_decimal_space (n : Nat) (h : 1000 ≤ n) (rest : List Char) :
    number 4 (decimal n ++ (" ".toList ++ rest)) = some (n, " ".toList ++ rest) :=
  number_decimal n h (Char.ofNat 32) rest digitVal_space

theorem twoDigits_pad2_end (n : Nat) (h : n < 100) : twoDigits (pad2 n) = some (n, []) := by
  have := twoDigits_pad2 n h []
  rwa [List.append_nil] at this

theorem zoneSign_plus (rest : List Char) : zoneSign ("+".toList ++ rest) = some (1, rest) := by
  simp only [zoneSign, expect_append]

theorem dateTimeMillis_gmtime (t : Nat) :
    dateTimeMillis (gmtime t).tm_wday (gmtime t).tm_mday (gmtime t).tm_mon
      (1900 + (gmtime t).tm_year) (gmtime t).tm_hour (gmtime t).tm_min (gmtime t).tm_sec 1 0 0
      = some (((t * 1000 : Nat) : Int)) := by
  obtain ⟨h1, _, h3, h4, _, _⟩ := gmtime_civil t
  obtain ⟨t1, t2, t3, _, t5, _⟩ := gmtime_time t
  unfold dateTimeMillis
  simp only [secondsSinceEpoch_gmtime]
  rw [if_pos ⟨h1, h3, h4, t1, t2, by omega, by omega, t5.symm⟩]
  simp

theorem parse_textOf (g : tm) (hw : g.tm_wday < 7) (hmon : g.tm_mon < 12)
    (hmd : g.tm_mday < 100) (hh : g.tm_hour < 100) (hm : g.tm_min < 100)
    (hs : g.tm_sec < 100) (hy : 1000 ≤ 1900 + g.tm_year) :
    parseRfc2822 (textOf g)
      = dateTimeMillis g.tm_wday g.tm_mday g.tm_mon (1900 + g.tm_year) g.tm_hour g.tm_min
          g.tm_sec 1 0 0 := by
  unfold textOf parseRfc2822
  rw [name3_wday _ hw, Option.some_bind]
  dsimp only
  rw [expect_append, Option.some_bind, twoDigits_pad2 _ hmd, Option.some_bind]
  dsimp only
  rw [expect_append, Option.some_bind, name3_mon _ hmon, Option.some_bind]
  dsimp only
  rw [expect_append, Option.some_bind, number_decimal_space _ hy, Option.some_bind]
  dsimp only
  rw [expect_append, Option.some_bind]
  unfold parseTime
  rw [twoDigits_pad2 _ hh, Option.some_bind]
  dsimp only
  rw [expect_append, Option.some_bind, twoDigits_pad2 _ hm, Option.some_bind]
  dsimp only
  rw [expect_append, Option.some_bind, twoDigits_pad2 _ hs, Option.some_bind]
  dsimp only
  rw [expect_append, Option.some_bind, zoneSign_plus, Option.some_bind]
  dsimp only
  rw [twoDigits_pad2 0 (by decide), Option.some_bind]
  dsimp only
  rw [twoDigits_pad2_end 0 (by decide), Option.some_bind]
  dsimp only
  rw [if_pos rfl]

theorem parse_timestamp_text (T : Nat) (hT : T < 2 ^ 64) :
    parseRfc2822 (_TimestampToRfc2822String T).toList = some (((T / 1000 * 1000 : Nat) : Int)) := by
  obtain ⟨h1, h2, h3, h4, _, _⟩ := gmtime_civil (T / 1000)
  obtain ⟨t1, t2, t3, _, t5, _⟩ := gmtime_time (T / 1000)
  have hw : (gmtime (T / 1000)).tm_wday < 7 := by
    rw [t5]
    exact Nat.mod_lt _ (by decide)
  have hmd : (gmtime (T / 1000)).tm_mday < 100 := by
    have : monthLength (1900 + (gmtime (T / 1000)).tm_year) (gmtime (T / 1000)).tm_mon ≤ 31 := by
      have hL : leapDay (1900 + (gmtime (T / 1000)).tm_year) ≤ 1 := by
        unfold leapDay
        split_ifs <;> omega
      unfold monthLength monthDays
      generalize leapDay (1900 + (gmtime (T / 1000)).tm_year) = L at hL ⊢
      generalize (gmtime (T / 1000)).tm_mon = m at h2 ⊢
      interval_cases m <;> first | (simp; done) | (simp; omega)
    omega
  have htext : (_TimestampToRfc2822String T).toList = textOf (gmtime (T / 1000)) :=
    timestamp_text T hT
  rw [htext, parse_textOf _ hw h2 hmd (by omega) (by omega) (by omega) (by omega)]
  exact dateTimeMillis_gmtime (T / 1000)

theorem gmtime_sample : gmtime 1414179147 = ⟨27, 32, 19, 24, 9, 114, 5, 0⟩ := by
  rfl

theorem decimal_2014 : decimal 2014 = "2014".toList := by
  unfold decimal
  norm_num
  decide

theorem textOf_sample :
    textOf ⟨27, 32, 19, 24, 9, 114, 5, 0⟩ = "Fri, 24 Oct 2014 19:32:27 +0000".toList := by
  unfold textOf
  dsimp only
  rw [show 1900 + 114 = 2014 from rfl, decimal_2014]
  decide

theorem textOf_utc (g : tm) : ∃ body : List Char, textOf g = body ++ " +0000".toList := by
  refine ⟨abbrev3 wdayNames g.tm_wday ++ (", ".toList ++ (pad2 g.tm_mday ++ (" ".toList ++
    (abbrev3 monNames g.tm_mon ++ (" ".toList ++ (decimal (1900 + g.tm_year) ++ (" ".toList ++
    (pad2 g.tm_hour ++ (":".toList ++ (pad2 g.tm_min ++ (":".toList ++
    pad2 g.tm_sec))))))))))), ?_⟩
  have hz : " ".toList ++ ("+".toList ++ (pad2 0 ++ pad2 0)) = " +0000".toList := by decide
  unfold textOf
  rw [hz]
  simp only [List.append_assoc]

theorem year_le_9999 (t : Nat) (ht : t < 253402300800) : 1900 + (gmtime t).tm_year ≤ 9999 := by
  obtain ⟨h1, _, _, _, _, h6⟩ := gmtime_civil t
  have hd : t / 86400 ≤ 2932896 := by omega
  generalize yearDay (1900 + (gmtime t).tm_year) (gmtime t).tm_mon (gmtime t).tm_mday = yd
    at h6
  generalize 1900 + (gmtime t).tm_year = year at h1 h6 ⊢
  generalize t / 86400 = days at hd h6
  omega

theorem decimal_length_four (n : Nat) (h1 : 1000 ≤ n) (h2 : n ≤ 9999) :
    (decimal n).length = 4 := by
  unfold decimal
  rw [List.length_map, List.length_reverse]
  have hlt : n < 10 ^ (Nat.digits 10 n).length := Nat.lt_base_pow_length_digits (by decide)
  have hle := Nat.base_pow_length_digits_le 10 n (by decide) (by omega)
  have hlo : 4 ≤ (Nat.digits 10 n).length := by
    by_contra hcon
    have : 10 ^ (Nat.digits 10 n).length ≤ 10 ^ 3 :=
      Nat.pow_le_pow_right (by decide) (by omega)
    omega
  have hhi : (Nat.digits 10 n).length ≤ 4 := by
    by_contra hcon
    have : 10 ^ 5 ≤ 10 ^ (Nat.digits 10 n).length :=
      Nat.pow_le_pow_right (by decide) (by omega)
    omega
  omega

theorem abbrev3_wday_length (w : Nat) (h : w < 7) : (abbrev3 wdayNames w).length = 3 := by
  interval_cases w <;> rfl

theorem abbrev3_mon_length (m : Nat) (h : m < 12) : (abbrev3 monNames m).length = 3 := by
  interval_cases m <;> rfl

theorem textOf_length (g : tm) (hw : g.tm_wday < 7) (hm : g.tm_mon < 12) :
    (textOf g).length = 27 + (decimal (1900 + g.tm_year)).length := by
  unfold textOf
  simp only [List.length_append, pad2, List.length_cons, List.length_nil,
    abbrev3_wday_length _ hw, abbrev3_mon_length _ hm]
  have e1 : ", ".toList.length = 2 := rfl
  have e2 : " ".toList.length = 1 := rfl
  have e3 : ":".toList.length = 1 := rfl
  have e4 : "+".toList.length = 1 := rfl
  rw [e1, e2, e3, e4]
  omega

theorem timestamp_length (T : Nat) (hT : T < 253402300800000) :
    (_TimestampToRfc2822String T).length = 31 := by
  have htext : (_TimestampToRfc2822String T).toList = textOf (gmtime (T / 1000)) :=
    timestamp_text T (by norm_num; omega)
  obtain ⟨h1, h2, _, _, _, _⟩ := gmtime_civil (T / 1000)
  obtain ⟨_, _, _, _, t5, _⟩ := gmtime_time (T / 1000)
  have hw : (gmtime (T / 1000)).tm_wday < 7 := by
    rw [t5]
    exact Nat.mod_lt _ (by decide)
  have hy := year_le_9999 (T / 1000) (by omega)
  show (_TimestampToRfc2822String T).toList.length = 31
  rw [htext, textOf_length _ hw h2, decimal_length_four _ (by omega) hy]

theorem gmtime_year_ge (t : Nat) (ht : 253402300800 ≤ t) :
    10000 ≤ 1900 + (gmtime t).tm_year := by
  have hz : 3652365 ≤ t / 86400 + 719468 := by omega
  simp only [gmtime]
  generalize t / 86400 + 719468 = z at hz ⊢
  generalize hc : min (z % 146097 / 36524) 3 = c
  generalize hq : min ((z % 146097 - c * 36524) / 1461) 24 = q
  generalize hy : min ((z % 146097 - c * 36524 - q * 1461) / 365) 3 = y
  generalize hrd : z % 146097 - c * 36524 - q * 1461 - y * 365 = rd
  generalize ha : z / 146097 = a
  obtain ⟨c3, q24, y3, hzz, hrd365, _⟩ :=
    cycles_facts z a c q y rd ha.symm hc.symm hq.symm hy.symm hrd.symm
  obtain ⟨k, rem, hmw, hk⟩ := monthWalk_cases rd hrd365
  rw [hmw]
  dsimp only
  clear hc hq hy hrd ha
  have hk10 : 306 ≤ rd → k ≥ 10 := by
    intro h306
    rcases hk with h | h | h | h | h | h | h | h | h | h | h | h <;>
      obtain ⟨h1, h2, h3⟩ := h <;> omega
  split_ifs with h10
  · omega
  · have : rd < 306 := by
      by_contra hcon
      exact h10 (hk10 (by omega))
    omega

theorem decimal_length_five (n : Nat) (h : 10000 ≤ n) : 5 ≤ (decimal n).length := by
  unfold decimal
  rw [List.length_map, List.length_reverse]
  have hlt : n < 10 ^ (Nat.digits 10 n).length := Nat.lt_base_pow_length_digits (by decide)
  by_contra hcon
  have : 10 ^ (Nat.digits 10 n).length ≤ 10 ^ 4 :=
    Nat.pow_le_pow_right (by decide) (by omega)
  omega

theorem timestamp_length_long (T : Nat) (h : 253402300800000 ≤ T) (hT : T < 2 ^ 64) :
    32 ≤ (_TimestampToRfc2822String T).length := by
  have htext : (_TimestampToRfc2822String T).toList = textOf (gmtime (T / 1000)) :=
    timestamp_text T hT
  obtain ⟨_, h2, _, _, _, _⟩ := gmtime_civil (T / 1000)
  obtain ⟨_, _, _, _, t5, _⟩ := gmtime_time (T / 1000)
  have hw : (gmtime (T / 1000)).tm_wday < 7 := by
    rw [t5]
    exact Nat.mod_lt _ (by decide)
  have hy := gmtime_year_ge (T / 1000) (by omega)
  have h5 := decimal_length_five _ hy
  show 32 ≤ (_TimestampToRfc2822String T).toList.length
  rw [htext, textOf_length _ hw h2]
  omega

theorem gmtime_year_10000 : gmtime 253402300800 = ⟨0, 0, 0, 1, 0, 8100, 6, 0⟩ := by
  rfl

theorem decimal_10000 : decimal 10000 = "10000".toList := by
  unfold decimal
  norm_num
  decide

theorem textOf_year_10000 :
    textOf ⟨0, 0, 0, 1, 0, 8100, 6, 0⟩ = "Sat, 01 Jan 10000 00:00:00 +0000".toList := by
  unfold textOf
  dsimp only
  rw [show 1900 + 8100 = 10000 from rfl, decimal_10000]
  decide

/-- In the first second of the year 10000 the year is printed with five digits. -/
theorem timestamp_year_10000 (T : Nat) (h1 : 253402300800000 ≤ T) (h2 : T ≤ 253402300800999) :
    _TimestampToRfc2822String T = "Sat, 01 Jan 10000 00:00:00 +0000" := by
  have htext : (_TimestampToRfc2822String T).toList = textOf (gmtime (T / 1000)) :=
    timestamp_text T (by norm_num; omega)
  have hdiv : T / 1000 = 253402300800 := by omega
  apply String.ext
  show (_TimestampToRfc2822String T).toList = _
  rw [htext, hdiv, gmtime_year_10000, textOf_year_10000]
  rfl

/-- C8, counterexample: for the first millisecond of the year 10000 the text
is `Sat, 01 Jan 10000 00:00:00 +0000`, with a year of five digits and 32
characters; it is not of the form `Www, DD Mon YYYY HH:MM:SS +0000`, which
has 31. -/
theorem timestamp_shape_counterexample :
    _TimestampToRfc2822String 253402300800000 = "Sat, 01 Jan 10000 00:00:00 +0000" ∧
    ¬ ((_TimestampToRfc2822String 253402300800000).length = 31) := by
  have h := timestamp_year_10000 253402300800000 (by decide) (by decide)
  refine ⟨h, ?_⟩
  rw [h]
  decide

/-- C8, amended: for every millisecond timestamp `T` of type `uint64_t`, the
text `_TimestampToRfc2822String(T)` is an RFC 2822 date-time in UTC: the
reader `parseRfc2822` accepts it (day name, comma, two digit day, month name,
year of four or more digits, `HH:MM:SS`, zone), it ends in the zone ` +0000`,
and reading it back gives `T` truncated to whole seconds, `(T / 1000) * 1000`
milliseconds since the epoch.  The year is printed with all its digits: up to
the year 9999 (`T < 253402300800000`) it has four digits and the text has the
31 characters of `Www, DD Mon YYYY HH:MM:SS +0000`; from the year 10000 on it
has more digits and the text is longer.  For every `T` from 1414179147000 to
1414179147999 the text is `Fri, 24 Oct 2014 19:32:27 +0000`. -/
theorem timestamp_rfc2822_roundtrip (T : Nat) (hT : T < 2 ^ 64) :
    parseRfc2822 (_TimestampToRfc2822String T).toList
      = some (((T / 1000 * 1000 : Nat) : Int)) ∧
    (∃ body : List Char, (_TimestampToRfc2822String T).toList = body ++ " +0000".toList) ∧
    (T < 253402300800000 → (_TimestampToRfc2822String T).length = 31) ∧
    (253402300800000 ≤ T → 32 ≤ (_TimestampToRfc2822String T).length) ∧
    (1414179147000 ≤ T → T ≤ 1414179147999 →
      _TimestampToRfc2822String T = "Fri, 24 Oct 2014 19:32:27 +0000") := by
  have htext : (_TimestampToRfc2822String T).toList = textOf (gmtime (T / 1000)) :=
    timestamp_text T hT
  refine ⟨parse_timestamp_text T hT, ?_, timestamp_length T,
    fun h => timestamp_length_long T h hT, ?_⟩
  · rw [htext]
    exact textOf_utc _
  · intro h1 h2
    have hdiv : T / 1000 = 1414179147 := by omega
    apply String.ext
    show (_TimestampToRfc2822String T).toList = _
    rw [htext, hdiv, gmtime_sample, textOf_sample]
    rfl

theorem timestamp_rfc2822_roundtrip_witness :
    parseRfc2822 (_TimestampToRfc2822String 1414179147000).toList
      = some (((1414179147000 / 1000 * 1000 : Nat) : Int)) ∧
    (_TimestampToRfc2822String 1414179147000).length = 31 ∧
    _TimestampToRfc2822String 1414179147000 = "Fri, 24 Oct 2014 19:32:27 +0000" :=
  ⟨(timestamp_rfc2822_roundtrip 1414179147000 (by decide)).1,
    (timestamp_rfc2822_roundtrip 1414179147000 (by decide)).2.2.1 (by decide),
    (timestamp_rfc2822_roundtrip 1414179147000 (by decide)).2.2.2.2 (by decide) (by decide)⟩

end ServerIconExportUpdateProcess
